import Mathlib

/-!
# Verification of the backtest simulation and aggregate scoring engine

Shallow embedding of the backtest core of the `tradingeconomics` repository
(`src/services/geminiService.ts`, third segment: the backtest service).
JavaScript numbers are modelled as rationals (`ℚ`).  `Math.sqrt`, whose exact
value is irrational in general, is passed to the scoring engine as an explicit
parameter `sqrtQ : ℚ → ℚ`; every theorem below is independent of its value
(none of the verified claims depends on the numeric value of the RMSE).
JavaScript objects used as string-keyed maps are modelled as association lists
in insertion order (`List (String × α)`); object-key lookup is first-match
lookup, and assignment overwrites an existing key in place or appends a fresh
key at the end, exactly as JS object semantics preserve insertion order.
-/

namespace Backtest

/-- `primary`/`peers` observation payload of a `Tick`
    (`types.ts`, `Tick.primary`): `{title, value: number|null, unit}`. -/
structure PrimaryObservation where
  title : String
  value : Option ℚ
  unit : String
  deriving DecidableEq, Repr

/-- Peer observation of a `Tick` (`types.ts`, `Tick.peers` entries). -/
structure PeerObservation where
  title : String
  value : Option ℚ
  unit : String
  relationship : ℚ
  deriving DecidableEq, Repr

/-- One historical time-step (`types.ts`, `Tick`). -/
structure Tick where
  date : String
  country : String
  indicator : String
  primary : PrimaryObservation
  peers : List PeerObservation
  deriving DecidableEq, Repr

/-- One forecaster's output for one tick (`types.ts`, `ForecastResult`). -/
structure ForecastResult where
  prediction : ℚ
  unit : String
  rationale : String
  confidence : ℚ
  deriving DecidableEq, Repr

/-- The judge's evaluation of one forecast (`types.ts`, `JudgeResult`). -/
structure JudgeResult where
  accuracy : ℚ
  error : ℚ
  feedback : String
  deriving DecidableEq, Repr

/-- One tick's aggregated forecasts and evaluations
    (`types.ts`, `BacktestTickResult`).  The `Record<string, _>` maps are
    association lists in insertion order. -/
structure BacktestTickResult where
  tickIndex : ℕ
  tickData : Tick
  forecasts : List (String × ForecastResult)
  evaluations : List (String × JudgeResult)
  deriving DecidableEq, Repr

/-- One model's final statistics (`types.ts`, `ModelBenchmark`).
    `modelName` is `modelId.split('::')[1]`, which is `undefined` (here
    `none`) when the id contains no `::` separator. -/
structure ModelBenchmark where
  modelId : String
  modelName : Option String
  provider : String
  completionRate : ℚ
  directionalAccuracy : ℚ
  rmse : ℚ
  brierScore : ℚ
  avgConfidence : ℚ
  compositeScore : ℚ
  predictions : ℕ
  deriving DecidableEq, Repr

/-- An excluded model (`types.ts`, `ExcludedModel`).  At runtime the
    `'Insufficient Coverage'` entries are built by spreading a full
    `ModelBenchmark` (so they retain all metric fields and have no
    `message`), while `'Failed'` entries carry only the stub fields plus a
    `message`; the metric fields are therefore `Option`-valued here. -/
structure ExcludedModel where
  modelId : String
  modelName : Option String
  provider : String
  reason : String
  message : Option String
  predictions : ℕ
  totalTicks : ℚ
  completionRate : Option ℚ
  directionalAccuracy : Option ℚ
  rmse : Option ℚ
  brierScore : Option ℚ
  avgConfidence : Option ℚ
  compositeScore : Option ℚ
  deriving DecidableEq, Repr

/-- The run's final report (`types.ts`, `BacktestResults`). -/
structure BacktestResults where
  compositeScore : ℚ
  overallDirectionalAccuracy : ℚ
  overallMagnitudeRmse : ℚ
  overallAvgConfidence : ℚ
  topPerformers : List ModelBenchmark
  excludedModels : List ExcludedModel
  deriving DecidableEq, Repr

/-- `constants.ts` line 163: `export const PARTICIPATION_THRESHOLD = 80;`. -/
def PARTICIPATION_THRESHOLD : ℚ := 80

/-- JS `a || b` for a possibly-absent string `a`: falls back to `b` when `a`
    is `undefined` (`none`) or the empty string (falsy). -/
def jsOrElse (a : Option String) (b : String) : String :=
  match a with
  | some s => if s = "" then b else s
  | none => b

/-- `modelId.split('::')[0]`: the provider segment (JS `split` always yields
    at least one element). -/
def providerOf (modelId : String) : String :=
  (modelId.splitOn "::").headD modelId

/-- `modelId.split('::')[1]`: the model-name segment, `undefined` (`none`)
    when no `::` occurs. -/
def modelNameOf (modelId : String) : Option String :=
  (modelId.splitOn "::").get? 1

/-- `Math.sign` on a rational. -/
def signQ (q : ℚ) : ℚ :=
  if 0 < q then 1 else if q < 0 then -1 else 0

/-- One collected scoring sample for one model:
    `(prediction, confidence, actualNext, actualPrev)` as pushed into
    `statsByModel` (`geminiService.ts` lines 452-459). -/
structure Sample where
  prediction : ℚ
  confidence : ℚ
  actual : ℚ
  prevActual : ℚ
  deriving DecidableEq, Repr

/-- The per-sample directional-correctness flag (`geminiService.ts`
    lines 485-488): `1` when `Math.sign(pred - prevActual)` equals
    `Math.sign(actual - prevActual)` (the code's redundant extra disjunct for
    the zero/zero case is kept verbatim), else `0`. -/
def sampleOutcome (s : Sample) : ℚ :=
  if signQ (s.prediction - s.prevActual) = signQ (s.actual - s.prevActual) ∨
      (signQ (s.actual - s.prevActual) = 0 ∧ signQ (s.prediction - s.prevActual) = 0) then 1
  else 0

/-- The sample contributed by the tick result at position `j` of the
    accumulated list for model `m`, if any (`geminiService.ts` lines
    445-459): the previous actual is `ticks[j].primary.value`, the next
    actual `ticks[j+1]?.primary.value`; when either is `null`/`undefined`
    the tick result is skipped (`continue`), otherwise the model's forecast
    (if present) yields a sample.  An out-of-range `ticks[j]` — which would
    throw in JS and never occurs for loop-produced inputs, where the result
    list is never longer than `ticks.length - 1` — is modelled as a skip. -/
def sampleAt (ticks : List Tick) (j : ℕ) (tr : BacktestTickResult) (m : String) :
    Option Sample :=
  match (ticks.get? j).bind (fun t => t.primary.value),
      (ticks.get? (j + 1)).bind (fun t => t.primary.value) with
  | some pa, some ca =>
      (tr.forecasts.lookup m).map (fun f => ⟨f.prediction, f.confidence, ca, pa⟩)
  | _, _ => none

/-- Helper for `modelSamples`: walks the tick-result list carrying the
    position index. -/
def samplesAux (ticks : List Tick) (m : String) :
    ℕ → List BacktestTickResult → List Sample
  | _, [] => []
  | j, tr :: rest =>
    match sampleAt ticks j tr m with
    | some s => s :: samplesAux ticks m (j + 1) rest
    | none => samplesAux ticks m (j + 1) rest

/-- The raw series collected for model `m` by the aggregation loop of
    `calculateAggregateScores` (`geminiService.ts` lines 445-460); samples
    appear in tick-result order. -/
def modelSamples (ticks : List Tick) (tickResults : List BacktestTickResult)
    (m : String) : List Sample :=
  samplesAux ticks m 0 tickResults

/-- `Math.max(...) - Math.min(...)` over all collected actual values
    (`geminiService.ts` lines 463-466).  The empty case (JS `-Infinity`) is
    mapped to `0`, which is indistinguishable downstream: the only consumer
    is the guard `actualsRange > 0`, and when no actuals exist there are no
    benchmarks to normalize. -/
def rangeOfList (vals : List ℚ) : ℚ :=
  match vals with
  | [] => 0
  | v :: vs => vs.foldl max v - vs.foldl min v

/-- All actual values across every model's samples
    (`Object.values(statsByModel).flatMap(s => s.actuals)`).  `statsByModel`
    is keyed by the attempted-model list; iterating the list directly instead
    of the deduplicated key set can only repeat whole blocks, which leaves
    the min/max-derived range (its only consumer) unchanged. -/
def globalActualsRange (ticks : List Tick) (tickResults : List BacktestTickResult)
    (allAttemptedModels : List String) : ℚ :=
  rangeOfList (allAttemptedModels.flatMap
    (fun m => (modelSamples ticks tickResults m).map (fun s => s.actual)))

/-- Per-model metric computation of `calculateAggregateScores`
    (`geminiService.ts` lines 470-524), for a model with a non-empty sample
    list. -/
def mkBenchmark (sqrtQ : ℚ → ℚ) (modelId : String) (samples : List Sample)
    (totalPossibleTicks : ℚ) (actualsRange : ℚ) : ModelBenchmark :=
  let n : ℚ := samples.length
  let correctDirections : ℚ := (samples.map sampleOutcome).sum
  let squaredErrorSum : ℚ := (samples.map (fun s => (s.actual - s.prediction) ^ 2)).sum
  let brierScoreSum : ℚ := (samples.map (fun s => (s.confidence - sampleOutcome s) ^ 2)).sum
  let directionalAccuracy := correctDirections / n * 100
  let rmse := sqrtQ (squaredErrorSum / n)
  let brierScore := brierScoreSum / n
  let avgConfidence := (samples.map (fun s => s.confidence)).sum / n * 100
  let normDirAcc := directionalAccuracy / 100
  let normRmse := if actualsRange > 0 then 1 - min 1 (rmse / actualsRange) else 0
  let normConfidence := avgConfidence / 100
  let compositeScore :=
    (0.4 * normDirAcc + 0.3 * normRmse + 0.2 * normConfidence + 0.1 * (1 - brierScore)) * 100
  { modelId := modelId
    modelName := modelNameOf modelId
    provider := providerOf modelId
    completionRate := n / totalPossibleTicks * 100
    directionalAccuracy := directionalAccuracy
    rmse := rmse
    brierScore := brierScore
    avgConfidence := avgConfidence
    compositeScore := compositeScore
    predictions := samples.length }

/-- The benchmark list built by `calculateAggregateScores` (lines 470-525):
    one entry per attempted model with at least one collected sample
    (`n === 0` models are handled later as `'Failed'` exclusions). -/
def benchmarksOf (sqrtQ : ℚ → ℚ) (ticks : List Tick)
    (tickResults : List BacktestTickResult) (allAttemptedModels : List String) :
    List ModelBenchmark :=
  let totalPossibleTicks : ℚ := (ticks.length : ℚ) - 1
  let actualsRange := globalActualsRange ticks tickResults allAttemptedModels
  allAttemptedModels.filterMap (fun m =>
    let s := modelSamples ticks tickResults m
    if s.length = 0 then none
    else some (mkBenchmark sqrtQ m s totalPossibleTicks actualsRange))

/-- An `'Insufficient Coverage'` exclusion entry: the benchmark spread plus
    `reason` and `totalTicks` (`geminiService.ts` lines 532-537). -/
def icEntry (b : ModelBenchmark) (totalPossibleTicks : ℚ) : ExcludedModel :=
  { modelId := b.modelId
    modelName := b.modelName
    provider := b.provider
    reason := "Insufficient Coverage"
    message := none
    predictions := b.predictions
    totalTicks := totalPossibleTicks
    completionRate := some b.completionRate
    directionalAccuracy := some b.directionalAccuracy
    rmse := some b.rmse
    brierScore := some b.brierScore
    avgConfidence := some b.avgConfidence
    compositeScore := some b.compositeScore }

/-- A `'Failed'` exclusion entry for a model absent from the benchmark set
    (`geminiService.ts` lines 545-555).  `errors` is keyed by the
    model-name segment, as produced by `runBacktest`'s error formatting. -/
def failedEntry (errors : List (Option String × String)) (modelId : String)
    (totalPossibleTicks : ℚ) : ExcludedModel :=
  { modelId := modelId
    modelName := modelNameOf modelId
    provider := providerOf modelId
    reason := "Failed"
    message := some (jsOrElse (errors.lookup (modelNameOf modelId))
      "Model failed to produce any valid output.")
    predictions := 0
    totalTicks := totalPossibleTicks
    completionRate := none
    directionalAccuracy := none
    rmse := none
    brierScore := none
    avgConfidence := none
    compositeScore := none }

/-- The `'Failed'` entry of the empty-result short circuit
    (`geminiService.ts` lines 416-427); note the different default message
    and the `modelName || modelId` fallback used only in this branch. -/
def emptyFailedEntry (errors : List (Option String × String)) (ticks : List Tick)
    (modelId : String) : ExcludedModel :=
  { modelId := modelId
    modelName := some (jsOrElse (modelNameOf modelId) modelId)
    provider := providerOf modelId
    reason := "Failed"
    message := some (jsOrElse (errors.lookup (modelNameOf modelId))
      "No successful predictions were generated.")
    predictions := 0
    totalTicks := (ticks.length : ℚ) - 1
    completionRate := none
    directionalAccuracy := none
    rmse := none
    brierScore := none
    avgConfidence := none
    compositeScore := none }

/-- Stable insertion for the descending-by-`compositeScore` sort of
    `topPerformers` (`topPerformers.sort((a, b) => b.compositeScore -
    a.compositeScore)`, ES-stable). -/
def insertByCompositeDesc (b : ModelBenchmark) :
    List ModelBenchmark → List ModelBenchmark
  | [] => [b]
  | c :: rest =>
    if b.compositeScore ≥ c.compositeScore then b :: c :: rest
    else c :: insertByCompositeDesc b rest

/-- Stable descending sort by `compositeScore`. -/
def sortByCompositeDesc : List ModelBenchmark → List ModelBenchmark
  | [] => []
  | b :: rest => insertByCompositeDesc b (sortByCompositeDesc rest)

/-- `avg` helper of `calculateAggregateScores` (line 561). -/
def avgQ (l : List ℚ) : ℚ :=
  if l.length > 0 then l.sum / l.length else 0

/-- The `emptyResults` value (`geminiService.ts` lines 405-412). -/
def emptyResults : BacktestResults :=
  { compositeScore := 0
    overallDirectionalAccuracy := 0
    overallMagnitudeRmse := 0
    overallAvgConfidence := 0
    topPerformers := []
    excludedModels := [] }

/-- The `topPerformers` list of the non-empty branch of
    `calculateAggregateScores` (lines 528-541, 558): the benchmarks passing
    the participation filter, sorted descending by composite score. -/
def topPerformersOf (sqrtQ : ℚ → ℚ) (ticks : List Tick)
    (tickResults : List BacktestTickResult) (allAttemptedModels : List String) :
    List ModelBenchmark :=
  sortByCompositeDesc ((benchmarksOf sqrtQ ticks tickResults allAttemptedModels).filter
    (fun b => ¬ b.completionRate < PARTICIPATION_THRESHOLD))

/-- The `excludedModels` list of the non-empty branch of
    `calculateAggregateScores` (lines 528-556): first the
    insufficient-coverage entries in benchmark order, then the completely
    failed models in attempted order. -/
def excludedModelsOf (sqrtQ : ℚ → ℚ) (ticks : List Tick)
    (tickResults : List BacktestTickResult) (allAttemptedModels : List String)
    (errors : List (Option String × String)) : List ExcludedModel :=
  ((benchmarksOf sqrtQ ticks tickResults allAttemptedModels).filter
      (fun b => b.completionRate < PARTICIPATION_THRESHOLD)).map
    (fun b => icEntry b ((ticks.length : ℚ) - 1)) ++
  (allAttemptedModels.filter
      (fun m => ¬ (benchmarksOf sqrtQ ticks tickResults allAttemptedModels).any
        (fun b => b.modelId = m))).map
    (fun m => failedEntry errors m ((ticks.length : ℚ) - 1))

/-- The aggregate scoring engine `calculateAggregateScores`
    (`geminiService.ts` lines 399-573).  `sqrtQ` stands for `Math.sqrt`;
    `errors` is the formatted permanent-error map keyed by the model-name
    segment of each id. -/
def calculateAggregateScores (sqrtQ : ℚ → ℚ) (ticks : List Tick)
    (tickResults : List BacktestTickResult) (allAttemptedModels : List String)
    (errors : List (Option String × String)) : BacktestResults :=
  if tickResults.isEmpty then
    { emptyResults with
        excludedModels := allAttemptedModels.map (emptyFailedEntry errors ticks) }
  else
    let topPerformers := topPerformersOf sqrtQ ticks tickResults allAttemptedModels
    let excludedModels :=
      excludedModelsOf sqrtQ ticks tickResults allAttemptedModels errors
    if topPerformers.length = 0 then
      { emptyResults with excludedModels := excludedModels }
    else
      { compositeScore := avgQ (topPerformers.map (fun p => p.compositeScore))
        overallDirectionalAccuracy :=
          avgQ (topPerformers.map (fun p => p.directionalAccuracy))
        overallMagnitudeRmse := avgQ (topPerformers.map (fun p => p.rmse))
        overallAvgConfidence := avgQ (topPerformers.map (fun p => p.avgConfidence))
        topPerformers := topPerformers
        excludedModels := excludedModels }

/-! ## The retry wrapper `getForecastWithRetries` (`geminiService.ts` 575-597)

The wrapper is a pure function of the sequence of outcomes the underlying
`generateJsonContent` calls would produce (`outcomes k` is the result of the
`k`-th call, 0-based) and of the sequence of `Math.random()` draws
(`jitter k` is the draw taken before the `k`-th retry).  It returns the
propagated result, the number of calls actually made, and the list of
backoff delays (in milliseconds) slept before each retry. -/

/-- Substring test used to classify retryable errors (JS
    `String.prototype.includes`). -/
def containsSub (s pat : String) : Bool :=
  (s.splitOn pat).length > 1

/-- The retryable-error classifier (`geminiService.ts` lines 582-583):
    lower-cases the message and looks for rate-limit / HTTP 5xx /
    "overloaded" signatures. -/
def isRetryable (msg : String) : Bool :=
  let m := msg.toLower
  containsSub m "rate limit" || containsSub m "500" || containsSub m "502" ||
    containsSub m "503" || containsSub m "504" || containsSub m "overloaded"

/-- `maxRetries` constant of `getForecastWithRetries` (line 577): the
    maximum number of total attempts. -/
def maxRetries : ℕ := 3

/-- The `while (attempts < maxRetries)` loop of `getForecastWithRetries`:
    `attempts` counts the calls already made, `fuel = maxRetries - attempts`
    bounds the remaining iterations.  On a retryable failure with attempts
    remaining the code increments `attempts` and sleeps
    `2^attempts * 1000 + Math.random() * 1000` milliseconds before retrying;
    otherwise it re-throws.  Returns (result, total calls made, delays). -/
def retryAux (outcomes : ℕ → Except String ForecastResult) (jitter : ℕ → ℚ) :
    ℕ → ℕ → Except String ForecastResult × ℕ × List ℚ
  | attempts, 0 => (Except.error "Max retries exceeded", attempts, [])
  | attempts, fuel + 1 =>
    match outcomes attempts with
    | Except.ok r => (Except.ok r, attempts + 1, [])
    | Except.error msg =>
      if isRetryable msg ∧ attempts < maxRetries - 1 then
        let a := attempts + 1
        let delay := 2 ^ a * 1000 + jitter attempts * 1000
        let rec' := retryAux outcomes jitter a fuel
        (rec'.1, rec'.2.1, delay :: rec'.2.2)
      else (Except.error msg, attempts + 1, [])

/-- `getForecastWithRetries` (`geminiService.ts` lines 575-597) as a pure
    function of the call outcomes and the random draws. -/
def getForecastWithRetries (outcomes : ℕ → Except String ForecastResult)
    (jitter : ℕ → ℚ) : Except String ForecastResult × ℕ × List ℚ :=
  retryAux outcomes jitter 0 maxRetries

/-! ## The simulation loop `runBacktest` (`geminiService.ts` 599-729)

Model invocations are abstracted as oracles indexed by tick index and
forecaster id: `fo i m` is the settled outcome of
`getForecastWithRetries(prompt, m, apiKeys)` for tick `i`, and `jo i m` the
settled outcome of the judge call `generateJsonContent(judgePrompt, judge)`
evaluating `m`'s forecast of tick `i`.  Prompt strings are consumed only by
the network boundary and are not modelled; the per-model rolling histories
that feed them are tracked faithfully.  An event log records every oracle
invocation so that "model X was (not) invoked at tick i" is a provable
statement. -/

/-- A model-invocation event of the simulation loop. -/
inductive RunEvent where
  | forecastCall (tick : ℕ) (modelId : String)
  | judgeCall (tick : ℕ) (modelId : String)
  deriving DecidableEq, Repr

/-- The tick index an event belongs to. -/
def RunEvent.tickOf : RunEvent → ℕ
  | RunEvent.forecastCall t _ => t
  | RunEvent.judgeCall t _ => t

/-- Whether an event is an invocation on behalf of model `m`. -/
def RunEvent.isCallOf (m : String) : RunEvent → Bool
  | RunEvent.forecastCall _ m' => m' = m
  | RunEvent.judgeCall _ m' => m' = m

/-- The sub-log of events that invoke model `m`. -/
def eventsOfModel (m : String) (evs : List RunEvent) : List RunEvent :=
  evs.filter (RunEvent.isCallOf m)

/-- One rolling performance-history entry (`modelPerformanceHistory`). -/
structure PerfEntry where
  prediction : ℚ
  actual : ℚ
  error : ℚ
  deriving DecidableEq, Repr

/-- JS object assignment `obj[m] = v`: overwrites an existing key in place,
    otherwise appends the new key at the end (insertion order). -/
def insertOv (l : List (String × α)) (m : String) (v : α) : List (String × α) :=
  if l.any (fun p => p.1 = m) then
    l.map (fun p => if p.1 = m then (m, v) else p)
  else l ++ [(m, v)]

/-- Append `x` to the history list stored for key `m` (JS
    `history[m].push(x)`; every forecaster key is initialised up front). -/
def histAppend (l : List (String × List α)) (m : String) (x : α) :
    List (String × List α) :=
  l.map (fun p => if p.1 = m then (p.1, p.2 ++ [x]) else p)

/-- JS `String.prototype.replace` with a string pattern: replaces only the
    first occurrence. -/
def replaceFirst (s pat : String) : String :=
  match s.splitOn pat with
  | [] => s
  | [_] => s
  | x :: rest => x ++ String.intercalate pat rest

/-- Error-message cleanup on a permanent forecast failure (line 662):
    `errorMessage.replace(`[${modelId.split('::')[1]}]`, '').trim()`.
    (JS renders an `undefined` segment as the string `"undefined"`.) -/
def stripModelTag (modelId msg : String) : String :=
  (replaceFirst msg ("[" ++ (modelNameOf modelId).getD "undefined" ++ "]")).trim

/-- The mutable state threaded through the tick loop of `runBacktest`:
    the four run-scoped accumulators (lines 614-617), plus the invocation
    log and a `halted` flag modelling the two `break` statements. -/
structure LoopState where
  feedbackHist : List (String × List String)
  perfHist : List (String × List PerfEntry)
  tickResults : List BacktestTickResult
  persistentErrors : List (String × String)
  events : List RunEvent
  halted : Bool
  deriving DecidableEq, Repr

/-- One settled forecast result folded into the tick's forecast map and the
    permanent-error map (`geminiService.ts` lines 654-665): a fulfilled
    result is stored in the forecast map; a rejection records the model's
    first permanent error, stripped of the `[modelName]` tag. -/
def fpStep (acc : List (String × ForecastResult) × List (String × String))
    (x : String × Except String ForecastResult) :
    List (String × ForecastResult) × List (String × String) :=
  match x.2 with
  | Except.ok v => (insertOv acc.1 x.1 v, acc.2)
  | Except.error msg =>
    (acc.1,
      if (acc.2.lookup x.1).isNone then acc.2 ++ [(x.1, stripModelTag x.1 msg)]
      else acc.2)

/-- The forecast phase of one tick (`geminiService.ts` lines 638-665):
    every forecaster without a recorded permanent error is invoked; fulfilled
    results are collected into the tick's forecast map, rejections record the
    model's first permanent error (stripped of the model tag).  Returns the
    forecast map and the updated error map. -/
def forecastPhase (fo : ℕ → String → Except String ForecastResult)
    (forecasterModels : List String) (i : ℕ) (errs : List (String × String)) :
    List (String × ForecastResult) × List (String × String) :=
  let settled := forecasterModels.filterMap (fun m =>
    if (errs.lookup m).isNone then some (m, fo i m) else none)
  settled.foldl fpStep (([] : List (String × ForecastResult)), errs)

/-- One settled judge result folded into (evaluations, feedback history,
    performance history, permanent errors) (`geminiService.ts` lines
    687-707): a fulfilled evaluation is recorded and the model's rolling
    histories are appended to; a rejection records `Evaluation failed: …`
    as the model's first permanent error. -/
def epStep (jo : ℕ → String → Except String JudgeResult) (i : ℕ)
    (actualValue : ℚ)
    (acc : List (String × JudgeResult) × List (String × List String) ×
      List (String × List PerfEntry) × List (String × String))
    (x : String × ForecastResult) :
    List (String × JudgeResult) × List (String × List String) ×
      List (String × List PerfEntry) × List (String × String) :=
  match jo i x.1 with
  | Except.ok jr =>
    (insertOv acc.1 x.1 jr,
      histAppend acc.2.1 x.1 jr.feedback,
      histAppend acc.2.2.1 x.1 ⟨x.2.prediction, actualValue, jr.error⟩,
      acc.2.2.2)
  | Except.error msg =>
    (acc.1, acc.2.1, acc.2.2.1,
      if (acc.2.2.2.lookup x.1).isNone then
        acc.2.2.2 ++ [(x.1, "Evaluation failed: " ++ msg)]
      else acc.2.2.2)

/-- The evaluation phase of one tick (`geminiService.ts` lines 667-707):
    the judge is invoked once per successful forecast of this tick. -/
def evalPhase (jo : ℕ → String → Except String JudgeResult) (i : ℕ)
    (actualValue : ℚ) (tickForecasts : List (String × ForecastResult))
    (fh : List (String × List String)) (ph : List (String × List PerfEntry))
    (errs : List (String × String)) :
    List (String × JudgeResult) × List (String × List String) ×
      List (String × List PerfEntry) × List (String × String) :=
  tickForecasts.foldl (epStep jo i actualValue)
    (([] : List (String × JudgeResult)), fh, ph, errs)

/-- One iteration of the tick loop (`geminiService.ts` lines 626-718) for
    tick index `i`.  A halted state is returned unchanged (the loop `break`s
    never resume).  The `!nextTick` safeguard and the
    `nextTick.primary.value === null` ground-truth check both halt; the
    latter fires only *after* the forecast phase has already run. -/
def stepTick (fo : ℕ → String → Except String ForecastResult)
    (jo : ℕ → String → Except String JudgeResult)
    (forecasterModels : List String) (ticks : List Tick) (i : ℕ)
    (s : LoopState) : LoopState :=
  if s.halted then s else
  match ticks.get? i, ticks.get? (i + 1) with
  | some currentTick, some nextTick =>
    let invoked := forecasterModels.filter (fun m => (s.persistentErrors.lookup m).isNone)
    let events1 := s.events ++ invoked.map (RunEvent.forecastCall i)
    let fp := forecastPhase fo forecasterModels i s.persistentErrors
    let tickForecasts := fp.1
    let errs1 := fp.2
    match nextTick.primary.value with
    | none =>
      { s with events := events1, persistentErrors := errs1, halted := true }
    | some actualValue =>
      let events2 := events1 ++ tickForecasts.map (fun p => RunEvent.judgeCall i p.1)
      let ep := evalPhase jo i actualValue tickForecasts s.feedbackHist s.perfHist errs1
      { feedbackHist := ep.2.1
        perfHist := ep.2.2.1
        tickResults := s.tickResults ++
          (if ep.1.isEmpty then []
           else [{ tickIndex := i, tickData := currentTick,
                   forecasts := tickForecasts, evaluations := ep.1 }])
        persistentErrors := ep.2.2.2
        events := events2
        halted := false }
  | _, _ => { s with halted := true }

/-- The tick loop: processes tick indices `i, i+1, …, i+k-1` (the code's
    `for (let i = 0; i < maxTicksToProcess; i++)`). -/
def runLoop (fo : ℕ → String → Except String ForecastResult)
    (jo : ℕ → String → Except String JudgeResult)
    (forecasterModels : List String) (ticks : List Tick) :
    ℕ → ℕ → LoopState → LoopState
  | _, 0, s => s
  | i, k + 1, s =>
    runLoop fo jo forecasterModels ticks (i + 1) k
      (stepTick fo jo forecasterModels ticks i s)

/-- The initial loop state (`geminiService.ts` lines 614-622): empty
    histories for every forecaster, no results, no errors. -/
def initState (forecasterModels : List String) : LoopState :=
  { feedbackHist := forecasterModels.map (fun m => (m, []))
    perfHist := forecasterModels.map (fun m => (m, []))
    tickResults := []
    persistentErrors := []
    events := []
    halted := false }

/-- The value returned by a successful `runBacktest`, extended with the
    invocation log and the raw permanent-error map for specification
    purposes. -/
structure RunOutput where
  results : BacktestResults
  tickResults : List BacktestTickResult
  events : List RunEvent
  persistentErrors : List (String × String)
  deriving DecidableEq, Repr

/-- `runBacktest` (`geminiService.ts` lines 599-729): precondition checks,
    the tick loop over `min(ticks.length - 1, maxPredictions)` ticks, error
    formatting (keys become the model-name segment), and final scoring. -/
def runBacktest (sqrtQ : ℚ → ℚ) (fo : ℕ → String → Except String ForecastResult)
    (jo : ℕ → String → Except String JudgeResult)
    (llmSelections : List (String × List String)) (judgeModel : String)
    (maxPredictions : ℕ) (ticks : List Tick) : Except String RunOutput :=
  let forecasterModels := llmSelections.flatMap
    (fun ps => ps.2.map (fun m => ps.1 ++ "::" ++ m))
  if judgeModel = "" then
    Except.error "A judge model must be selected to run a backtest."
  else if forecasterModels.isEmpty then
    Except.error "At least one forecaster model must be selected."
  else if ticks.length < 2 then
    Except.error "At least two data ticks are required to run a backtest."
  else
    let maxTicksToProcess := min (ticks.length - 1) maxPredictions
    let final := runLoop fo jo forecasterModels ticks 0 maxTicksToProcess
      (initState forecasterModels)
    let formattedErrors := final.persistentErrors.map
      (fun p => (modelNameOf p.1, p.2))
    Except.ok
      { results := calculateAggregateScores sqrtQ ticks final.tickResults
          forecasterModels formattedErrors
        tickResults := final.tickResults
        events := final.events
        persistentErrors := final.persistentErrors }

/-- The retry-classification of a settled call outcome: a fulfilled call is
    never retried; a rejected one is retried only if its message matches a
    retryable signature. -/
def retryableOutcome : Except String ForecastResult → Bool
  | Except.ok _ => false
  | Except.error msg => isRetryable msg

/-- The invocation log of a run (`[]` when the run fails a precondition). -/
def runEvents (r : Except String RunOutput) : List RunEvent :=
  match r with
  | Except.ok o => o.events
  | Except.error _ => []

/-- The committed tick results of a run (`[]` when the run fails a
    precondition). -/
def runTickResults (r : Except String RunOutput) : List BacktestTickResult :=
  match r with
  | Except.ok o => o.tickResults
  | Except.error _ => []

/-! ## Concrete scenario inputs used by counterexamples and witnesses -/

/-- A minimal tick with the given primary value. -/
def mkTick (v : Option ℚ) : Tick :=
  { date := "2024-01-01", country := "US", indicator := "GDP",
    primary := { title := "GDP", value := v, unit := "%" }, peers := [] }

/-- A minimal forecast with the given prediction and confidence. -/
def mkForecast (p c : ℚ) : ForecastResult :=
  { prediction := p, unit := "%", rationale := "r", confidence := c }

/-- A minimal judge evaluation. -/
def mkJudge : JudgeResult :=
  { accuracy := 1, error := 0, feedback := "fb" }

/-- Ticks for the completion-rate-denominator counterexample: the first
    tick's own primary value is `null`, the later ones are defined. -/
def ticksCex1 : List Tick := [mkTick none, mkTick (some 100), mkTick (some 105)]

/-- Tick results for the denominator counterexample: the model forecast on
    both processable ticks, but the first tick result has no previous actual
    value (`ticks[0].primary.value` is `null`), so it is skipped by the
    series extraction. -/
def trsCex1 : List BacktestTickResult :=
  [{ tickIndex := 0, tickData := mkTick none,
     forecasts := [("P::m", mkForecast 101 (1/2))],
     evaluations := [("P::m", mkJudge)] },
   { tickIndex := 1, tickData := mkTick (some 100),
     forecasts := [("P::m", mkForecast 104 (1/2))],
     evaluations := [("P::m", mkJudge)] }]

/-- A 5-tick run in which `ticks[3].primary.value` is `null`, so the
    no-ground-truth halt fires at tick index 2. -/
def ticksCex2 : List Tick :=
  [mkTick (some 100), mkTick (some 101), mkTick (some 102), mkTick none,
   mkTick (some 104)]

/-- A forecaster oracle that always succeeds. -/
def foOk : ℕ → String → Except String ForecastResult :=
  fun _ _ => Except.ok (mkForecast 100 (1/2))

/-- A judge oracle that always succeeds. -/
def joOk : ℕ → String → Except String JudgeResult :=
  fun _ _ => Except.ok mkJudge

/-- The halt-scenario run: one healthy forecaster over `ticksCex2`. -/
def outCex2 : Except String RunOutput :=
  runBacktest id foOk joOk [("P", ["m"])] "P::judge" 10 ticksCex2

/-- A forecaster oracle that permanently fails for model `P::a` and
    succeeds for everyone else. -/
def foFailA : ℕ → String → Except String ForecastResult :=
  fun _ m => if m = "P::a" then Except.error "[a] boom" else foOk 0 m

/-- Six identical ticks: with four committed tick results this puts one
    model's completion rate exactly at the 80 participation threshold. -/
def ticksW : List Tick :=
  [mkTick (some 100), mkTick (some 100), mkTick (some 100), mkTick (some 100),
   mkTick (some 100), mkTick (some 100)]

/-- Four aligned tick results (positions 0-3) for model `P::m` over
    `ticksW`: 4 samples out of 5 possible ticks, i.e. an exactly-80%
    completion rate. -/
def trsW : List BacktestTickResult :=
  [{ tickIndex := 0, tickData := mkTick (some 100),
     forecasts := [("P::m", mkForecast 100 (1/2))],
     evaluations := [("P::m", mkJudge)] },
   { tickIndex := 1, tickData := mkTick (some 100),
     forecasts := [("P::m", mkForecast 100 (1/2))],
     evaluations := [("P::m", mkJudge)] },
   { tickIndex := 2, tickData := mkTick (some 100),
     forecasts := [("P::m", mkForecast 100 (1/2))],
     evaluations := [("P::m", mkJudge)] },
   { tickIndex := 3, tickData := mkTick (some 100),
     forecasts := [("P::m", mkForecast 100 (1/2))],
     evaluations := [("P::m", mkJudge)] }]

/-- A tick result in which model `P::b` was forecast but its judge
    evaluation failed (it is absent from `evaluations`), while `P::a`
    was both forecast and evaluated. -/
def trsW10 : List BacktestTickResult :=
  [{ tickIndex := 0, tickData := mkTick (some 100),
     forecasts := [("P::a", mkForecast 101 (1/2)), ("P::b", mkForecast 99 (3/4))],
     evaluations := [("P::a", mkJudge)] }]

/-- Ticks for the judge-failure scenario. -/
def ticksW10 : List Tick := [mkTick (some 100), mkTick (some 105)]

/-- Outcome sequence for the retry-wrapper witness: a retryable rate-limit
    failure, then success. -/
def outcomesW : ℕ → Except String ForecastResult :=
  fun k => if k = 0 then Except.error "Rate limit hit for this model." else Except.ok (mkForecast 100 (1/2))

/-- Jitter sequence for the retry-wrapper witness. -/
def jitterW : ℕ → ℚ := fun _ => 1/2

/-- A judge oracle that fails for model `P::a` and succeeds otherwise. -/
def joFailA : ℕ → String → Except String JudgeResult :=
  fun _ m => if m = "P::a" then Except.error "judge down" else Except.ok mkJudge

/-- The benchmark computed for model `P::m` in the threshold-boundary
    scenario (completion rate exactly 80). -/
def bW : ModelBenchmark :=
  mkBenchmark id "P::m" (modelSamples ticksW trsW "P::m")
    ((ticksW.length : ℚ) - 1) (globalActualsRange ticksW trsW ["P::m"])

/-- The benchmark computed for model `P::m` over the
    denominator-counterexample inputs. -/
def bCex1 : ModelBenchmark :=
  mkBenchmark id "P::m" (modelSamples ticksCex1 trsCex1 "P::m")
    ((ticksCex1.length : ℚ) - 1) (globalActualsRange ticksCex1 trsCex1 ["P::m"])

/-- An arbitrary replacement tick result used to show that a tick with a
    missing previous actual contributes nothing to the extracted series. -/
def trX : BacktestTickResult :=
  { tickIndex := 0, tickData := mkTick none,
    forecasts := [("P::m", mkForecast 999 1)], evaluations := [] }

/-! ## Association-list and sort helper lemmas -/

theorem lookup_append_some {α : Type} {l l₂ : List (String × α)} {m : String}
    {e : α} (h : l.lookup m = some e) : (l ++ l₂).lookup m = some e := by
  rw [List.lookup_append, h]; rfl

theorem lookup_single_ne {α : Type} {k m : String} {v : α} (h : k ≠ m) :
    ([(k, v)] : List (String × α)).lookup m = none := by
  have : (m == k) = false := by simp [Ne.symm h]
  simp [List.lookup_cons, this]

theorem lookup_append_none {α : Type} {l l₂ : List (String × α)} {m : String}
    (h : l.lookup m = none) (h₂ : l₂.lookup m = none) :
    (l ++ l₂).lookup m = none := by
  rw [List.lookup_append, h, h₂]; rfl

theorem mem_insertOv {α : Type} {l : List (String × α)} {m : String} {v : α}
    {p : String × α} (h : p ∈ insertOv l m v) : p ∈ l ∨ p = (m, v) := by
  unfold insertOv at h
  split at h
  · rcases List.mem_map.mp h with ⟨q, hq, he⟩
    by_cases hqm : q.1 = m
    · right; rw [if_pos hqm] at he; exact he.symm
    · left; rw [if_neg hqm] at he; exact he ▸ hq
  · rcases List.mem_append.mp h with h' | h'
    · exact Or.inl h'
    · exact Or.inr (List.mem_singleton.mp h')

theorem insertOv_keys_nodup {α : Type} {l : List (String × α)} {m : String}
    {v : α} (h : (l.map Prod.fst).Nodup) :
    ((insertOv l m v).map Prod.fst).Nodup := by
  unfold insertOv
  split
  · have : (l.map (fun p => if p.1 = m then (m, v) else p)).map Prod.fst =
        l.map Prod.fst := by
      rw [List.map_map]
      apply List.map_congr_left
      intro p _
      by_cases h1 : p.1 = m <;> simp [h1]
    rw [this]; exact h
  · rename_i hno
    rw [List.map_append]
    rw [List.nodup_append]
    refine ⟨h, List.nodup_singleton m, ?_⟩
    intro k hk hk'
    simp only [List.map_cons, List.map_nil, List.mem_singleton] at hk'
    subst hk'
    rcases List.mem_map.mp hk with ⟨p, hp, hpk⟩
    exact hno (List.any_eq_true.mpr ⟨p, hp, by simp [hpk]⟩)

theorem mem_insertByCompositeDesc {x b : ModelBenchmark}
    {l : List ModelBenchmark} :
    x ∈ insertByCompositeDesc b l ↔ x = b ∨ x ∈ l := by
  induction l with
  | nil => simp [insertByCompositeDesc]
  | cons c rest ih =>
    unfold insertByCompositeDesc
    split
    · simp [List.mem_cons]
    · simp only [List.mem_cons, ih]
      tauto

theorem mem_sortByCompositeDesc {x : ModelBenchmark} {l : List ModelBenchmark} :
    x ∈ sortByCompositeDesc l ↔ x ∈ l := by
  induction l with
  | nil => simp [sortByCompositeDesc]
  | cons b rest ih =>
    unfold sortByCompositeDesc
    rw [mem_insertByCompositeDesc, ih, List.mem_cons]

theorem sortByCompositeDesc_eq_nil {l : List ModelBenchmark} :
    sortByCompositeDesc l = [] ↔ l = [] := by
  constructor
  · intro h
    rcases l with _ | ⟨b, rest⟩
    · rfl
    · exfalso
      have : b ∈ sortByCompositeDesc (b :: rest) :=
        mem_sortByCompositeDesc.mpr (List.mem_cons_self b rest)
      rw [h] at this
      exact List.not_mem_nil b this
  · intro h; subst h; rfl

/-! ## Scoring-engine lemmas -/

theorem mem_benchmarksOf {sq : ℚ → ℚ} {ticks : List Tick}
    {trs : List BacktestTickResult} {models : List String} {b : ModelBenchmark} :
    b ∈ benchmarksOf sq ticks trs models ↔
      ∃ m ∈ models, (modelSamples ticks trs m).length ≠ 0 ∧
        b = mkBenchmark sq m (modelSamples ticks trs m) ((ticks.length : ℚ) - 1)
          (globalActualsRange ticks trs models) := by
  unfold benchmarksOf
  rw [List.mem_filterMap]
  constructor
  · rintro ⟨m, hm, hf⟩
    refine ⟨m, hm, ?_⟩
    dsimp only at hf
    split at hf
    · exact absurd hf (by simp)
    · rename_i hne
      exact ⟨hne, (Option.some_injective _ hf).symm⟩
  · rintro ⟨m, hm, hne, hb⟩
    refine ⟨m, hm, ?_⟩
    rw [if_neg hne, hb]

theorem lookup_some_mem {α : Type} {l : List (String × α)} {m : String} {v : α}
    (h : l.lookup m = some v) : (m, v) ∈ l := by
  induction l with
  | nil => simp [List.lookup_nil] at h
  | cons p t ih =>
    rcases p with ⟨k, v'⟩
    rw [List.lookup_cons] at h
    rcases hbeq : (m == k) with _ | _
    · rw [hbeq] at h
      exact List.mem_cons_of_mem _ (ih h)
    · rw [hbeq] at h
      have hk : m = k := by simpa using hbeq
      have hv : v' = v := by simpa using h
      subst hk; subst hv
      exact List.mem_cons_self _ _

theorem sampleOutcome_eq_zero_or_one (s : Sample) :
    sampleOutcome s = 0 ∨ sampleOutcome s = 1 := by
  unfold sampleOutcome
  split <;> simp

theorem sampleAt_some {ticks : List Tick} {j : ℕ} {tr : BacktestTickResult}
    {m : String} {s : Sample} (h : sampleAt ticks j tr m = some s) :
    ∃ f, tr.forecasts.lookup m = some f ∧ s.prediction = f.prediction ∧
      s.confidence = f.confidence := by
  unfold sampleAt at h
  split at h
  · rcases Option.map_eq_some'.mp h with ⟨f, hf, hs⟩
    exact ⟨f, hf, by rw [← hs], by rw [← hs]⟩
  · exact absurd h (by simp)

theorem sampleAt_none_of_missing {ticks : List Tick} {j : ℕ}
    (h : (ticks.get? j).bind (fun t => t.primary.value) = none ∨
      (ticks.get? (j + 1)).bind (fun t => t.primary.value) = none)
    (tr : BacktestTickResult) (m : String) : sampleAt ticks j tr m = none := by
  unfold sampleAt
  rcases h with h | h
  · rw [h]
  · rw [h]
    cases (ticks.get? j).bind (fun t => t.primary.value) <;> rfl

theorem mem_samplesAux_of_get {ticks : List Tick} {m : String} :
    ∀ (trs : List BacktestTickResult) (j0 j : ℕ) (tr : BacktestTickResult)
      (s : Sample), trs.get? j = some tr →
      sampleAt ticks (j0 + j) tr m = some s → s ∈ samplesAux ticks m j0 trs := by
  intro trs
  induction trs with
  | nil => intro j0 j tr s h; simp at h
  | cons hd tl ih =>
    intro j0 j tr s hget hs
    cases j with
    | zero =>
      rw [List.get?_cons_zero] at hget
      injection hget with hget
      subst hget
      rw [Nat.add_zero] at hs
      unfold samplesAux
      rw [hs]
      exact List.mem_cons_self _ _
    | succ j' =>
      rw [List.get?_cons_succ] at hget
      have hs' : sampleAt ticks (j0 + 1 + j') tr m = some s := by
        rw [show j0 + 1 + j' = j0 + (j' + 1) by omega]; exact hs
      have hmem := ih (j0 + 1) j' tr s hget hs'
      unfold samplesAux
      cases hAt : sampleAt ticks j0 hd m
      · exact hmem
      · exact List.mem_cons_of_mem _ hmem

theorem samplesAux_confidence_mem {ticks : List Tick} {m : String} :
    ∀ (trs : List BacktestTickResult) (j0 : ℕ) (s : Sample),
      s ∈ samplesAux ticks m j0 trs →
      ∃ tr ∈ trs, ∃ f, tr.forecasts.lookup m = some f ∧
        s.prediction = f.prediction ∧ s.confidence = f.confidence := by
  intro trs
  induction trs with
  | nil => intro j0 s h; simp [samplesAux] at h
  | cons hd tl ih =>
    intro j0 s h
    unfold samplesAux at h
    cases hAt : sampleAt ticks j0 hd m with
    | none =>
      rw [hAt] at h
      rcases ih (j0 + 1) s h with ⟨tr, htr, f, hf, hp, hc⟩
      exact ⟨tr, List.mem_cons_of_mem _ htr, f, hf, hp, hc⟩
    | some s' =>
      rw [hAt] at h
      rcases List.mem_cons.mp h with h' | h'
      · subst h'
        rcases sampleAt_some hAt with ⟨f, hf, hp, hc⟩
        exact ⟨hd, List.mem_cons_self _ _, f, hf, hp, hc⟩
      · rcases ih (j0 + 1) s h' with ⟨tr, htr, f, hf, hp, hc⟩
        exact ⟨tr, List.mem_cons_of_mem _ htr, f, hf, hp, hc⟩

theorem samplesAux_map_evaluations {ticks : List Tick} {m : String}
    (g : BacktestTickResult → List (String × JudgeResult)) :
    ∀ (trs : List BacktestTickResult) (j0 : ℕ),
      samplesAux ticks m j0
        (trs.map (fun tr => { tr with evaluations := g tr })) =
      samplesAux ticks m j0 trs := by
  intro trs
  induction trs with
  | nil => intro j0; rfl
  | cons hd tl ih =>
    intro j0
    have hAt : sampleAt ticks j0 { hd with evaluations := g hd } m =
        sampleAt ticks j0 hd m := rfl
    rw [List.map_cons]
    unfold samplesAux
    rw [hAt, ih (j0 + 1)]

theorem samplesAux_set_of_missing {ticks : List Tick} {m : String} :
    ∀ (trs : List BacktestTickResult) (j0 idx : ℕ) (tr' : BacktestTickResult),
      ((ticks.get? (j0 + idx)).bind (fun t => t.primary.value) = none ∨
        (ticks.get? (j0 + idx + 1)).bind (fun t => t.primary.value) = none) →
      samplesAux ticks m j0 (trs.set idx tr') = samplesAux ticks m j0 trs := by
  intro trs
  induction trs with
  | nil => intro j0 idx tr' _; rfl
  | cons hd tl ih =>
    intro j0 idx tr' h
    cases idx with
    | zero =>
      rw [Nat.add_zero] at h
      rw [List.set_cons_zero]
      unfold samplesAux
      rw [sampleAt_none_of_missing h tr' m, sampleAt_none_of_missing h hd m]
    | succ idx' =>
      rw [List.set_cons_succ]
      unfold samplesAux
      have h' : ((ticks.get? (j0 + 1 + idx')).bind (fun t => t.primary.value) = none ∨
          (ticks.get? (j0 + 1 + idx' + 1)).bind (fun t => t.primary.value) = none) := by
        rw [show j0 + 1 + idx' = j0 + (idx' + 1) by omega]
        exact h
      rw [ih (j0 + 1) idx' tr' h']

theorem mkBenchmark_completionRate (sq : ℚ → ℚ) (m : String)
    (samples : List Sample) (total range : ℚ) :
    (mkBenchmark sq m samples total range).completionRate =
      ((mkBenchmark sq m samples total range).predictions : ℚ) / total * 100 := rfl

theorem mkBenchmark_composite (sq : ℚ → ℚ) (m : String) (samples : List Sample)
    (total range : ℚ) :
    (mkBenchmark sq m samples total range).compositeScore =
      100 * (0.4 * ((mkBenchmark sq m samples total range).directionalAccuracy / 100) +
        0.3 * (if range > 0 then
          1 - min 1 ((mkBenchmark sq m samples total range).rmse / range) else 0) +
        0.2 * ((mkBenchmark sq m samples total range).avgConfidence / 100) +
        0.1 * (1 - (mkBenchmark sq m samples total range).brierScore)) := by
  simp only [mkBenchmark]
  ring

theorem mkBenchmark_dirAcc_bounds (sq : ℚ → ℚ) (m : String)
    (samples : List Sample) (total range : ℚ) (hne : samples ≠ []) :
    0 ≤ (mkBenchmark sq m samples total range).directionalAccuracy ∧
      (mkBenchmark sq m samples total range).directionalAccuracy ≤ 100 := by
  have hn : (0 : ℚ) < (samples.length : ℚ) := by
    exact_mod_cast List.length_pos.mpr hne
  have hsum0 : 0 ≤ (samples.map sampleOutcome).sum := by
    apply List.sum_nonneg
    intro x hx
    rcases List.mem_map.mp hx with ⟨s, _, rfl⟩
    rcases sampleOutcome_eq_zero_or_one s with h | h <;> rw [h] <;> norm_num
  have hsum1 : (samples.map sampleOutcome).sum ≤ (samples.length : ℚ) := by
    have := List.sum_le_card_nsmul (samples.map sampleOutcome) 1 (by
      intro x hx
      rcases List.mem_map.mp hx with ⟨s, _, rfl⟩
      rcases sampleOutcome_eq_zero_or_one s with h | h <;> rw [h] <;> norm_num)
    simpa [nsmul_eq_mul] using this
  have hq0 : (0 : ℚ) ≤ (samples.map sampleOutcome).sum / (samples.length : ℚ) :=
    div_nonneg hsum0 hn.le
  have hq1 : (samples.map sampleOutcome).sum / (samples.length : ℚ) ≤ 1 :=
    (div_le_one hn).mpr hsum1
  constructor
  · show 0 ≤ (samples.map sampleOutcome).sum / (samples.length : ℚ) * 100
    linarith
  · show (samples.map sampleOutcome).sum / (samples.length : ℚ) * 100 ≤ 100
    linarith

theorem mkBenchmark_brier_bounds (sq : ℚ → ℚ) (m : String)
    (samples : List Sample) (total range : ℚ) (hne : samples ≠ [])
    (hc : ∀ s ∈ samples, 0 ≤ s.confidence ∧ s.confidence ≤ 1) :
    0 ≤ (mkBenchmark sq m samples total range).brierScore ∧
      (mkBenchmark sq m samples total range).brierScore ≤ 1 := by
  have hn : (0 : ℚ) < (samples.length : ℚ) := by
    exact_mod_cast List.length_pos.mpr hne
  have hsum0 : 0 ≤ (samples.map (fun s => (s.confidence - sampleOutcome s) ^ 2)).sum := by
    apply List.sum_nonneg
    intro x hx
    rcases List.mem_map.mp hx with ⟨s, _, rfl⟩
    positivity
  have hsum1 : (samples.map (fun s => (s.confidence - sampleOutcome s) ^ 2)).sum ≤
      (samples.length : ℚ) := by
    have := List.sum_le_card_nsmul
      (samples.map (fun s => (s.confidence - sampleOutcome s) ^ 2)) 1 (by
      intro x hx
      rcases List.mem_map.mp hx with ⟨s, hs, rfl⟩
      rcases hc s hs with ⟨hc0, hc1⟩
      rcases sampleOutcome_eq_zero_or_one s with h | h <;> rw [h] <;> nlinarith)
    simpa [nsmul_eq_mul] using this
  constructor
  · exact div_nonneg hsum0 hn.le
  · exact (div_le_one hn).mpr hsum1

theorem calculateAggregateScores_topPerformers (sq : ℚ → ℚ) (ticks : List Tick)
    (trs : List BacktestTickResult) (models : List String)
    (errors : List (Option String × String)) (hne : trs ≠ []) :
    (calculateAggregateScores sq ticks trs models errors).topPerformers =
      topPerformersOf sq ticks trs models := by
  unfold calculateAggregateScores
  rw [if_neg (by simpa [List.isEmpty_iff] using hne)]
  dsimp only
  split
  · rename_i hlen
    exact (List.length_eq_zero.mp hlen).symm
  · rfl

theorem calculateAggregateScores_excludedModels (sq : ℚ → ℚ) (ticks : List Tick)
    (trs : List BacktestTickResult) (models : List String)
    (errors : List (Option String × String)) (hne : trs ≠ []) :
    (calculateAggregateScores sq ticks trs models errors).excludedModels =
      excludedModelsOf sq ticks trs models errors := by
  unfold calculateAggregateScores
  rw [if_neg (by simpa [List.isEmpty_iff] using hne)]
  dsimp only
  split <;> rfl

theorem mem_topPerformersOf {sq : ℚ → ℚ} {ticks : List Tick}
    {trs : List BacktestTickResult} {models : List String} {b : ModelBenchmark} :
    b ∈ topPerformersOf sq ticks trs models ↔
      b ∈ benchmarksOf sq ticks trs models ∧
        ¬ b.completionRate < PARTICIPATION_THRESHOLD := by
  unfold topPerformersOf
  rw [mem_sortByCompositeDesc, List.mem_filter]
  simp [decide_eq_true_eq]

theorem benchmarksOf_nil (sq : ℚ → ℚ) (ticks : List Tick)
    (models : List String) : benchmarksOf sq ticks [] models = [] := by
  unfold benchmarksOf
  rw [List.filterMap_eq_nil_iff]
  intro m _
  dsimp only
  rw [if_pos (show (modelSamples ticks [] m).length = 0 from rfl)]

theorem icEntry_inj {b b' : ModelBenchmark} {t : ℚ}
    (h : icEntry b t = icEntry b' t) : b = b' := by
  cases b
  cases b'
  simp only [icEntry, ExcludedModel.mk.injEq, Option.some.injEq, and_true,
    true_and] at h
  simp only [ModelBenchmark.mk.injEq]
  tauto

/-! ## Claims about the aggregate scoring engine -/

/-- C9: the aggregate scoring engine is a pure, deterministic function of
    `(ticks, tickResults, models, errors)`: two invocations on the same
    input yield identical `BacktestResults`.  In this embedding the engine
    is a mathematical function of its arguments, so determinism is the
    stated equality and input immutability is structural (arguments are
    values; no reference to them can be modified). -/
theorem claim9_scoring_deterministic (sq : ℚ → ℚ) (ticks : List Tick)
    (trs : List BacktestTickResult) (models : List String)
    (errors : List (Option String × String)) :
    calculateAggregateScores sq ticks trs models errors =
      calculateAggregateScores sq ticks trs models errors := rfl

/-- C7: on an empty tick-result list every configured model is excluded
    with reason `'Failed'` and zero predictions, all summary scores are
    zero; and whenever `topPerformers` ends up empty, every overall summary
    field is zero (and only `excludedModels` is populated) — a failed run
    is reported as a value, not an exception. -/
theorem claim7_failed_run_reporting (sq : ℚ → ℚ) (ticks : List Tick)
    (trs : List BacktestTickResult) (models : List String)
    (errors : List (Option String × String)) :
    (trs = [] →
      (calculateAggregateScores sq ticks trs models errors).excludedModels =
        models.map (emptyFailedEntry errors ticks) ∧
      (∀ e ∈ (calculateAggregateScores sq ticks trs models errors).excludedModels,
        e.reason = "Failed" ∧ e.predictions = 0) ∧
      (∀ m ∈ models,
        ∃ e ∈ (calculateAggregateScores sq ticks trs models errors).excludedModels,
          e.modelId = m) ∧
      (calculateAggregateScores sq ticks trs models errors).topPerformers = [] ∧
      (calculateAggregateScores sq ticks trs models errors).compositeScore = 0 ∧
      (calculateAggregateScores sq ticks trs models errors).overallDirectionalAccuracy = 0 ∧
      (calculateAggregateScores sq ticks trs models errors).overallMagnitudeRmse = 0 ∧
      (calculateAggregateScores sq ticks trs models errors).overallAvgConfidence = 0) ∧
    ((calculateAggregateScores sq ticks trs models errors).topPerformers = [] →
      (calculateAggregateScores sq ticks trs models errors).compositeScore = 0 ∧
      (calculateAggregateScores sq ticks trs models errors).overallDirectionalAccuracy = 0 ∧
      (calculateAggregateScores sq ticks trs models errors).overallMagnitudeRmse = 0 ∧
      (calculateAggregateScores sq ticks trs models errors).overallAvgConfidence = 0) := by
  constructor
  · intro h
    subst h
    refine ⟨rfl, ?_, ?_, rfl, rfl, rfl, rfl, rfl⟩
    · intro e he
      have he' : e ∈ models.map (emptyFailedEntry errors ticks) := he
      rcases List.mem_map.mp he' with ⟨m, _, rfl⟩
      exact ⟨rfl, rfl⟩
    · intro m hm
      exact ⟨emptyFailedEntry errors ticks m, List.mem_map_of_mem _ hm, rfl⟩
  · intro htop
    by_cases h : trs = []
    · subst h
      exact ⟨rfl, rfl, rfl, rfl⟩
    · rw [calculateAggregateScores_topPerformers sq ticks trs models errors h] at htop
      unfold calculateAggregateScores
      rw [if_neg (by simpa [List.isEmpty_iff] using h)]
      dsimp only
      rw [if_pos (by rw [htop]; rfl)]
      exact ⟨rfl, rfl, rfl, rfl⟩

/-- C6: every model in `topPerformers`, and every `'Insufficient Coverage'`
    exclusion, reports `completionRate = predictions / (ticks.length - 1) ×
    100` — the denominator is the total possible ticks of the run, not the
    number of samples collected. -/
theorem claim6_completion_rate_formula (sq : ℚ → ℚ) (ticks : List Tick)
    (trs : List BacktestTickResult) (models : List String)
    (errors : List (Option String × String)) :
    (∀ b ∈ (calculateAggregateScores sq ticks trs models errors).topPerformers,
      b.completionRate = (b.predictions : ℚ) / ((ticks.length : ℚ) - 1) * 100) ∧
    (∀ e ∈ (calculateAggregateScores sq ticks trs models errors).excludedModels,
      e.reason = "Insufficient Coverage" →
      e.completionRate = some ((e.predictions : ℚ) / ((ticks.length : ℚ) - 1) * 100)) := by
  by_cases h : trs = []
  · subst h
    constructor
    · intro b hb
      exact absurd hb (List.not_mem_nil b)
    · intro e he hr
      have he' : e ∈ models.map (emptyFailedEntry errors ticks) := he
      rcases List.mem_map.mp he' with ⟨m, _, rfl⟩
      exact absurd hr (show ("Failed" : String) ≠ "Insufficient Coverage" by decide)
  · constructor
    · intro b hb
      rw [calculateAggregateScores_topPerformers sq ticks trs models errors h] at hb
      rcases mem_benchmarksOf.mp (mem_topPerformersOf.mp hb).1 with ⟨m, _, _, rfl⟩
      exact mkBenchmark_completionRate sq m _ _ _
    · intro e he hr
      rw [calculateAggregateScores_excludedModels sq ticks trs models errors h] at he
      rcases List.mem_append.mp he with he' | he'
      · rcases List.mem_map.mp he' with ⟨b, hb, rfl⟩
        rcases mem_benchmarksOf.mp (List.mem_filter.mp hb).1 with ⟨m, _, _, hbe⟩
        show some b.completionRate =
          some ((b.predictions : ℚ) / ((ticks.length : ℚ) - 1) * 100)
        rw [hbe, mkBenchmark_completionRate]
      · rcases List.mem_map.mp he' with ⟨m, _, rfl⟩
        exact absurd hr (show ("Failed" : String) ≠ "Insufficient Coverage" by decide)

/-- C5: a benchmarked model is excluded as `'Insufficient Coverage'` exactly
    when its completion rate is strictly below the participation threshold
    of 80; at exactly 80 it is placed in `topPerformers`. -/
theorem claim5_participation_threshold (sq : ℚ → ℚ) (ticks : List Tick)
    (trs : List BacktestTickResult) (models : List String)
    (errors : List (Option String × String)) (b : ModelBenchmark)
    (hb : b ∈ benchmarksOf sq ticks trs models) :
    (b.completionRate < PARTICIPATION_THRESHOLD →
      icEntry b ((ticks.length : ℚ) - 1) ∈
        (calculateAggregateScores sq ticks trs models errors).excludedModels ∧
      b ∉ (calculateAggregateScores sq ticks trs models errors).topPerformers) ∧
    (PARTICIPATION_THRESHOLD ≤ b.completionRate →
      b ∈ (calculateAggregateScores sq ticks trs models errors).topPerformers ∧
      icEntry b ((ticks.length : ℚ) - 1) ∉
        (calculateAggregateScores sq ticks trs models errors).excludedModels) ∧
    (b.completionRate = 80 →
      b ∈ (calculateAggregateScores sq ticks trs models errors).topPerformers) ∧
    (∀ e ∈ (calculateAggregateScores sq ticks trs models errors).excludedModels,
      e.reason = "Insufficient Coverage" →
      ∃ r, e.completionRate = some r ∧ r < PARTICIPATION_THRESHOLD) := by
  have hne : trs ≠ [] := by
    intro h
    rw [h, benchmarksOf_nil] at hb
    exact List.not_mem_nil b hb
  rw [calculateAggregateScores_topPerformers sq ticks trs models errors hne,
    calculateAggregateScores_excludedModels sq ticks trs models errors hne]
  refine ⟨?_, ?_, ?_, ?_⟩
  · intro hlt
    constructor
    · unfold excludedModelsOf
      apply List.mem_append_left
      apply List.mem_map_of_mem
      exact List.mem_filter.mpr ⟨hb, by simpa using hlt⟩
    · intro hmem
      exact (mem_topPerformersOf.mp hmem).2 hlt
  · intro hge
    constructor
    · exact mem_topPerformersOf.mpr ⟨hb, not_lt.mpr hge⟩
    · intro hmem
      unfold excludedModelsOf at hmem
      rcases List.mem_append.mp hmem with h' | h'
      · rcases List.mem_map.mp h' with ⟨b', hb', heq⟩
        have hbb : b' = b := icEntry_inj heq
        subst hbb
        have := (List.mem_filter.mp hb').2
        simp only [decide_eq_true_eq] at this
        exact absurd this (not_lt.mpr hge)
      · rcases List.mem_map.mp h' with ⟨m, _, heq⟩
        have := congrArg ExcludedModel.completionRate heq
        simp [icEntry, failedEntry] at this
  · intro heq
    exact mem_topPerformersOf.mpr ⟨hb, by rw [heq]; unfold PARTICIPATION_THRESHOLD; simp⟩
  · intro e he hr
    unfold excludedModelsOf at he
    rcases List.mem_append.mp he with h' | h'
    · rcases List.mem_map.mp h' with ⟨b', hb', rfl⟩
      refine ⟨b'.completionRate, rfl, ?_⟩
      have := (List.mem_filter.mp hb').2
      simpa using this
    · rcases List.mem_map.mp h' with ⟨m, _, rfl⟩
      exact absurd hr (show ("Failed" : String) ≠ "Insufficient Coverage" by decide)

theorem bW_mem_benchmarks : bW ∈ benchmarksOf id ticksW trsW ["P::m"] :=
  mem_benchmarksOf.mpr ⟨"P::m", by decide, by decide, rfl⟩

theorem bW_completionRate : bW.completionRate = 80 := by
  show ((modelSamples ticksW trsW "P::m").length : ℚ) /
    ((ticksW.length : ℚ) - 1) * 100 = 80
  rw [show (modelSamples ticksW trsW "P::m").length = 4 from by decide,
    show ticksW.length = 6 from rfl]
  norm_num

/-- C5 witness: in the six-tick scenario `ticksW`/`trsW`, model `P::m` has
    a completion rate of exactly 80 and lands in `topPerformers`. -/
theorem claim5_witness :
    bW ∈ (calculateAggregateScores id ticksW trsW ["P::m"] []).topPerformers :=
  (claim5_participation_threshold id ticksW trsW ["P::m"] [] bW
    bW_mem_benchmarks).2.2.1 bW_completionRate

/-- C6 witness: the boundary-scenario benchmark's completion rate equals
    `predictions / (ticks.length - 1) × 100` (4 / 5 × 100 = 80). -/
theorem claim6_witness :
    bW.completionRate = (bW.predictions : ℚ) / ((ticksW.length : ℚ) - 1) * 100 := by
  have htop : bW ∈ (calculateAggregateScores id ticksW trsW ["P::m"] []).topPerformers := by
    rw [calculateAggregateScores_topPerformers id ticksW trsW ["P::m"] [] (by decide)]
    exact mem_topPerformersOf.mpr ⟨bW_mem_benchmarks, by
      rw [bW_completionRate]
      unfold PARTICIPATION_THRESHOLD
      norm_num⟩
  exact (claim6_completion_rate_formula id ticksW trsW ["P::m"] []).1 bW htop

/-- C7 witness: with no tick results, the configured model is reported as a
    `'Failed'` exclusion and the summary composite score is zero. -/
theorem claim7_witness :
    (calculateAggregateScores id ticksW [] ["P::m"] []).excludedModels =
      ["P::m"].map (emptyFailedEntry [] ticksW) ∧
    (calculateAggregateScores id ticksW [] ["P::m"] []).compositeScore = 0 :=
  ⟨((claim7_failed_run_reporting id ticksW [] ["P::m"] []).1 rfl).1,
    ((claim7_failed_run_reporting id ticksW [] ["P::m"] []).2 rfl).1⟩

/-- C4: for every model with at least one collected sample, assuming every
    forecast confidence lies in `[0,1]`: directional accuracy is in
    `[0,100]`, the Brier score is in `[0,1]`, and the composite score is 100
    times a weighted combination with weights 0.4 / 0.3 / 0.2 / 0.1 (on
    normalized directional accuracy, normalized RMSE, normalized confidence,
    and one minus Brier score) summing to 1 before the ×100 scale. -/
theorem claim4_metric_bounds (sq : ℚ → ℚ) (ticks : List Tick)
    (trs : List BacktestTickResult) (models : List String) (b : ModelBenchmark)
    (hb : b ∈ benchmarksOf sq ticks trs models)
    (hconf : ∀ tr ∈ trs, ∀ p ∈ tr.forecasts,
      0 ≤ (p : String × ForecastResult).2.confidence ∧ p.2.confidence ≤ 1) :
    0 ≤ b.directionalAccuracy ∧ b.directionalAccuracy ≤ 100 ∧
    0 ≤ b.brierScore ∧ b.brierScore ≤ 1 ∧
    b.compositeScore =
      100 * (0.4 * (b.directionalAccuracy / 100) +
        0.3 * (if globalActualsRange ticks trs models > 0 then
          1 - min 1 (b.rmse / globalActualsRange ticks trs models) else 0) +
        0.2 * (b.avgConfidence / 100) + 0.1 * (1 - b.brierScore)) ∧
    (0.4 + 0.3 + 0.2 + 0.1 : ℚ) = 1 := by
  rcases mem_benchmarksOf.mp hb with ⟨m, _, hne, rfl⟩
  have hnil : modelSamples ticks trs m ≠ [] := by
    intro h
    exact hne (by rw [h]; rfl)
  have hcs : ∀ s ∈ modelSamples ticks trs m,
      0 ≤ s.confidence ∧ s.confidence ≤ 1 := by
    intro s hs
    rcases samplesAux_confidence_mem trs 0 s hs with ⟨tr, htr, f, hf, _, hcf⟩
    have := hconf tr htr (m, f) (lookup_some_mem hf)
    rw [hcf]
    exact this
  have hd := mkBenchmark_dirAcc_bounds sq m (modelSamples ticks trs m)
    ((ticks.length : ℚ) - 1) (globalActualsRange ticks trs models) hnil
  have hbr := mkBenchmark_brier_bounds sq m (modelSamples ticks trs m)
    ((ticks.length : ℚ) - 1) (globalActualsRange ticks trs models) hnil hcs
  exact ⟨hd.1, hd.2, hbr.1, hbr.2,
    mkBenchmark_composite sq m (modelSamples ticks trs m)
      ((ticks.length : ℚ) - 1) (globalActualsRange ticks trs models),
    by norm_num⟩

/-- C4 witness: the boundary-scenario benchmark (confidences all ½)
    satisfies the metric bounds and the composite decomposition. -/
theorem claim4_witness :
    0 ≤ bW.directionalAccuracy ∧ bW.directionalAccuracy ≤ 100 ∧
    0 ≤ bW.brierScore ∧ bW.brierScore ≤ 1 ∧
    bW.compositeScore =
      100 * (0.4 * (bW.directionalAccuracy / 100) +
        0.3 * (if globalActualsRange ticksW trsW ["P::m"] > 0 then
          1 - min 1 (bW.rmse / globalActualsRange ticksW trsW ["P::m"]) else 0) +
        0.2 * (bW.avgConfidence / 100) + 0.1 * (1 - bW.brierScore)) ∧
    (0.4 + 0.3 + 0.2 + 0.1 : ℚ) = 1 :=
  claim4_metric_bounds id ticksW trsW ["P::m"] bW bW_mem_benchmarks
    (by
      intro tr htr p hp
      fin_cases htr <;> fin_cases hp <;>
        exact ⟨by norm_num [mkForecast], by norm_num [mkForecast]⟩)

/-- C10: the scoring engine collects a sample from a committed tick result
    (with both actual values defined) for every model in its forecasts map;
    the evaluations map is never consulted, so a model whose judge
    evaluation failed on that tick still contributes to its predictions
    count and completion rate. -/
theorem claim10_unevaluated_forecasts_counted (sq : ℚ → ℚ) (ticks : List Tick)
    (trs : List BacktestTickResult) (models : List String) (j : ℕ) (m : String)
    (f : ForecastResult) (pa ca : ℚ) (tr : BacktestTickResult)
    (htr : trs.get? j = some tr) (hm : m ∈ models)
    (hpa : (ticks.get? j).bind (fun t => t.primary.value) = some pa)
    (hca : (ticks.get? (j + 1)).bind (fun t => t.primary.value) = some ca)
    (hf : tr.forecasts.lookup m = some f) :
    (⟨f.prediction, f.confidence, ca, pa⟩ : Sample) ∈ modelSamples ticks trs m ∧
    1 ≤ (modelSamples ticks trs m).length ∧
    (∃ b ∈ benchmarksOf sq ticks trs models, b.modelId = m ∧ 1 ≤ b.predictions) ∧
    (∀ g : BacktestTickResult → List (String × JudgeResult),
      modelSamples ticks (trs.map (fun tr' => { tr' with evaluations := g tr' })) m =
        modelSamples ticks trs m) := by
  have hAt : sampleAt ticks j tr m = some ⟨f.prediction, f.confidence, ca, pa⟩ := by
    unfold sampleAt
    rw [hpa, hca, hf]
    rfl
  have hmem : (⟨f.prediction, f.confidence, ca, pa⟩ : Sample) ∈
      modelSamples ticks trs m := by
    apply mem_samplesAux_of_get trs 0 j tr _ htr
    rw [Nat.zero_add]
    exact hAt
  have hlen : 1 ≤ (modelSamples ticks trs m).length :=
    List.length_pos.mpr (List.ne_nil_of_mem hmem)
  refine ⟨hmem, hlen, ?_, fun g => samplesAux_map_evaluations g trs 0⟩
  refine ⟨mkBenchmark sq m (modelSamples ticks trs m) ((ticks.length : ℚ) - 1)
    (globalActualsRange ticks trs models), ?_, rfl, ?_⟩
  · exact mem_benchmarksOf.mpr ⟨m, hm, by omega, rfl⟩
  · exact hlen

/-- C10 witness: in `trsW10`, model `P::b` was forecast but has no judge
    evaluation, yet its sample is collected and the evaluations maps are
    irrelevant to the extracted series. -/
theorem claim10_witness :
    (⟨99, 3/4, 105, 100⟩ : Sample) ∈ modelSamples ticksW10 trsW10 "P::b" ∧
    1 ≤ (modelSamples ticksW10 trsW10 "P::b").length ∧
    modelSamples ticksW10
      (trsW10.map (fun tr' => { tr' with evaluations := [] })) "P::b" =
      modelSamples ticksW10 trsW10 "P::b" := by
  have h := claim10_unevaluated_forecasts_counted id ticksW10 trsW10 ["P::a", "P::b"]
    0 "P::b" (mkForecast 99 (3/4)) 100 105
    { tickIndex := 0, tickData := mkTick (some 100),
      forecasts := [("P::a", mkForecast 101 (1/2)), ("P::b", mkForecast 99 (3/4))],
      evaluations := [("P::a", mkJudge)] }
    rfl (by decide) rfl rfl rfl
  exact ⟨h.1, h.2.1, h.2.2.2 (fun _ => [])⟩

theorem bCex1_rate : bCex1.completionRate = 50 := by
  show ((modelSamples ticksCex1 trsCex1 "P::m").length : ℚ) /
    ((ticksCex1.length : ℚ) - 1) * 100 = 50
  rw [show (modelSamples ticksCex1 trsCex1 "P::m").length = 1 from by decide,
    show ticksCex1.length = 3 from rfl]
  norm_num

theorem benchmarksCex1 : benchmarksOf id ticksCex1 trsCex1 ["P::m"] = [bCex1] := by
  unfold benchmarksOf
  rw [List.filterMap_cons, List.filterMap_nil]
  dsimp only
  rw [if_neg (show ¬ (modelSamples ticksCex1 trsCex1 "P::m").length = 0 from
    by decide)]
  rfl

/-- C1 counterexample: over `ticksCex1`/`trsCex1` the first tick result has
    no previous actual value (it is skipped by the series extraction, so the
    model's predictions count is 1, not 2), yet the completion-rate
    denominator still counts it: the completion rate comes out as
    `1/2 × 100 = 50 < 80` and the model is excluded for insufficient
    coverage.  Under the claim — where a skipped tick counts toward
    *neither* the predictions count *nor* the denominator — the rate would
    be `1/1 × 100 = 100`, which passes the threshold. -/
theorem claim1_counterexample :
    (ticksCex1.get? 0).bind (fun t => t.primary.value) = none ∧
    (modelSamples ticksCex1 trsCex1 "P::m").length = 1 ∧
    trsCex1.length = 2 ∧
    (calculateAggregateScores id ticksCex1 trsCex1 ["P::m"] []).topPerformers = [] ∧
    (calculateAggregateScores id ticksCex1 trsCex1 ["P::m"] []).excludedModels.map
        (fun e => (e.reason, e.predictions, e.completionRate)) =
      [("Insufficient Coverage", 1, some 50)] ∧
    (50 : ℚ) < PARTICIPATION_THRESHOLD ∧
    ¬ ((1 : ℚ) / 1 * 100 < PARTICIPATION_THRESHOLD) := by
  have hlt : bCex1.completionRate < PARTICIPATION_THRESHOLD := by
    rw [bCex1_rate]
    unfold PARTICIPATION_THRESHOLD
    norm_num
  refine ⟨rfl, by decide, rfl, ?_, ?_,
    by norm_num [PARTICIPATION_THRESHOLD],
    by norm_num [PARTICIPATION_THRESHOLD]⟩
  · rw [calculateAggregateScores_topPerformers id ticksCex1 trsCex1 ["P::m"] []
      (by decide)]
    unfold topPerformersOf
    rw [benchmarksCex1, List.filter_cons,
      if_neg (by simp only [decide_eq_true_eq, not_not]; exact hlt)]
    rfl
  · rw [calculateAggregateScores_excludedModels id ticksCex1 trsCex1 ["P::m"] []
      (by decide)]
    unfold excludedModelsOf
    rw [benchmarksCex1, List.filter_cons,
      if_pos (by simp only [decide_eq_true_eq]; exact hlt),
      List.filter_cons,
      if_neg (by
        simp only [decide_eq_true_eq, List.any_cons, List.any_nil, Bool.or_false,
          not_not]
        exact rfl)]
    simp only [List.filter_nil, List.map_nil, List.append_nil, List.map_cons]
    have hcr : (icEntry bCex1 ((ticksCex1.length : ℚ) - 1)).completionRate =
        some 50 := by
      show some bCex1.completionRate = some 50
      rw [bCex1_rate]
    rw [hcr]
    rfl

/-- C1 (amended): for every accumulated tick result (whose position in the
    list equals its `tickIndex`, as the loop guarantees), the raw-series
    extraction takes the previous actual from the tick at its `tickIndex`
    and the next actual from the tick at `tickIndex + 1`, appending
    `(prediction, confidence, actualNext, actualPrev)` for each model in the
    forecasts map; a tick result with a missing previous or next actual
    contributes nothing to any model's series (and hence predictions count)
    — but the completion-rate denominator remains `ticks.length - 1`, which
    still counts such ticks. -/
theorem claim1_series_extraction (sq : ℚ → ℚ) (ticks : List Tick)
    (trs : List BacktestTickResult) (models : List String) (j : ℕ)
    (tr : BacktestTickResult) (m : String) (f : ForecastResult) (pa ca : ℚ)
    (htr : trs.get? j = some tr) (hidx : tr.tickIndex = j) :
    ((ticks.get? tr.tickIndex).bind (fun t => t.primary.value) = some pa →
      (ticks.get? (tr.tickIndex + 1)).bind (fun t => t.primary.value) = some ca →
      tr.forecasts.lookup m = some f →
      (⟨f.prediction, f.confidence, ca, pa⟩ : Sample) ∈ modelSamples ticks trs m) ∧
    (((ticks.get? tr.tickIndex).bind (fun t => t.primary.value) = none ∨
        (ticks.get? (tr.tickIndex + 1)).bind (fun t => t.primary.value) = none) →
      ∀ tr', modelSamples ticks (trs.set j tr') m = modelSamples ticks trs m) ∧
    (∀ b ∈ benchmarksOf sq ticks trs models,
      b.completionRate = (b.predictions : ℚ) / ((ticks.length : ℚ) - 1) * 100) := by
  subst hidx
  refine ⟨?_, ?_, ?_⟩
  · intro hpa hca hf
    apply mem_samplesAux_of_get trs 0 tr.tickIndex tr _ htr
    rw [Nat.zero_add]
    unfold sampleAt
    rw [hpa, hca, hf]
    rfl
  · intro hmiss tr'
    apply samplesAux_set_of_missing trs 0 tr.tickIndex tr'
    simpa only [Nat.zero_add] using hmiss
  · intro b hb
    rcases mem_benchmarksOf.mp hb with ⟨m', _, _, rfl⟩
    exact mkBenchmark_completionRate sq m' _ _ _

/-- C1 witness: over the counterexample inputs, the aligned tick result at
    position 1 contributes its sample, the skipped tick result at position 0
    contributes nothing no matter what stands there, and the benchmark's
    completion rate uses the `ticks.length - 1` denominator. -/
theorem claim1_witness :
    (⟨104, 1/2, 105, 100⟩ : Sample) ∈ modelSamples ticksCex1 trsCex1 "P::m" ∧
    modelSamples ticksCex1 (trsCex1.set 0 trX) "P::m" =
      modelSamples ticksCex1 trsCex1 "P::m" ∧
    bCex1.completionRate = (bCex1.predictions : ℚ) / ((ticksCex1.length : ℚ) - 1) * 100 := by
  have h1 := claim1_series_extraction id ticksCex1 trsCex1 ["P::m"] 1
    { tickIndex := 1, tickData := mkTick (some 100),
      forecasts := [("P::m", mkForecast 104 (1/2))],
      evaluations := [("P::m", mkJudge)] }
    "P::m" (mkForecast 104 (1/2)) 100 105 rfl rfl
  have h0 := claim1_series_extraction id ticksCex1 trsCex1 ["P::m"] 0
    { tickIndex := 0, tickData := mkTick none,
      forecasts := [("P::m", mkForecast 101 (1/2))],
      evaluations := [("P::m", mkJudge)] }
    "P::m" (mkForecast 101 (1/2)) 0 0 rfl rfl
  have hmem : bCex1 ∈ benchmarksOf id ticksCex1 trsCex1 ["P::m"] :=
    mem_benchmarksOf.mpr ⟨"P::m", by decide, by decide, rfl⟩
  exact ⟨h1.1 rfl rfl rfl, h0.2.1 (Or.inl rfl) trX, h1.2.2 bCex1 hmem⟩

/-! ## Simulation-loop lemmas -/

theorem stepTick_halted {fo : ℕ → String → Except String ForecastResult}
    {jo : ℕ → String → Except String JudgeResult} {models : List String}
    {ticks : List Tick} {i : ℕ} {s : LoopState} (h : s.halted = true) :
    stepTick fo jo models ticks i s = s := by
  unfold stepTick
  rw [if_pos h]

theorem runLoop_halted {fo : ℕ → String → Except String ForecastResult}
    {jo : ℕ → String → Except String JudgeResult} {models : List String}
    {ticks : List Tick} :
    ∀ (k i : ℕ) (s : LoopState), s.halted = true →
      runLoop fo jo models ticks i k s = s := by
  intro k
  induction k with
  | zero => intro i s _; rfl
  | succ k ih =>
    intro i s h
    show runLoop fo jo models ticks (i + 1) k (stepTick fo jo models ticks i s) = s
    rw [stepTick_halted h]
    exact ih (i + 1) s h

theorem runLoop_add {fo : ℕ → String → Except String ForecastResult}
    {jo : ℕ → String → Except String JudgeResult} {models : List String}
    {ticks : List Tick} :
    ∀ (a b i : ℕ) (s : LoopState),
      runLoop fo jo models ticks i (a + b) s =
        runLoop fo jo models ticks (i + a) b (runLoop fo jo models ticks i a s) := by
  intro a
  induction a with
  | zero =>
    intro b i s
    rw [Nat.zero_add]
    rfl
  | succ a ih =>
    intro b i s
    rw [show a + 1 + b = (a + b) + 1 by omega]
    show runLoop fo jo models ticks (i + 1) (a + b) (stepTick fo jo models ticks i s) = _
    rw [ih b (i + 1) (stepTick fo jo models ticks i s),
      show i + 1 + a = i + (a + 1) by omega]
    rfl

theorem fpFold_keys_nodup :
    ∀ (l : List (String × Except String ForecastResult))
      (acc : List (String × ForecastResult) × List (String × String)),
      (acc.1.map Prod.fst).Nodup → (((l.foldl fpStep acc)).1.map Prod.fst).Nodup := by
  intro l
  induction l with
  | nil => intro acc h; exact h
  | cons x t ih =>
    intro acc h
    rw [List.foldl_cons]
    apply ih
    cases hx : x.2 with
    | ok v =>
      simp only [fpStep, hx]
      exact insertOv_keys_nodup h
    | error msg =>
      simp only [fpStep, hx]
      exact h

theorem fpFold_forecasts_mem {fo : ℕ → String → Except String ForecastResult}
    {i : ℕ} {errs : List (String × String)} :
    ∀ (l : List (String × Except String ForecastResult))
      (acc : List (String × ForecastResult) × List (String × String)),
      (∀ p ∈ acc.1, (errs.lookup p.1).isNone ∧ fo i p.1 = Except.ok p.2) →
      (∀ x ∈ l, (errs.lookup x.1).isNone ∧ x.2 = fo i x.1) →
      ∀ p ∈ (l.foldl fpStep acc).1,
        (errs.lookup p.1).isNone ∧ fo i p.1 = Except.ok p.2 := by
  intro l
  induction l with
  | nil => intro acc hacc _ p hp; exact hacc p hp
  | cons x t ih =>
    intro acc hacc hl p hp
    rw [List.foldl_cons] at hp
    refine ih _ ?_ (fun y hy => hl y (List.mem_cons_of_mem _ hy)) p hp
    intro q hq
    rcases hl x (List.mem_cons_self _ _) with ⟨hx1, hx2⟩
    cases hx : x.2 with
    | ok v =>
      simp only [fpStep, hx] at hq
      rcases mem_insertOv hq with h' | h'
      · exact hacc q h'
      · subst h'
        exact ⟨hx1, by rw [← hx2, hx]⟩
    | error msg =>
      simp only [fpStep, hx] at hq
      exact hacc q hq

theorem fpFold_lookup_some {m : String} {e : String} :
    ∀ (l : List (String × Except String ForecastResult))
      (acc : List (String × ForecastResult) × List (String × String)),
      acc.2.lookup m = some e → ((l.foldl fpStep acc)).2.lookup m = some e := by
  intro l
  induction l with
  | nil => intro acc h; exact h
  | cons x t ih =>
    intro acc h
    rw [List.foldl_cons]
    apply ih
    cases hx : x.2 with
    | ok v => simp only [fpStep, hx]; exact h
    | error msg =>
      simp only [fpStep, hx]
      split
      · exact lookup_append_some h
      · exact h

theorem fpFold_lookup_none {m : String} :
    ∀ (l : List (String × Except String ForecastResult))
      (acc : List (String × ForecastResult) × List (String × String)),
      acc.2.lookup m = none →
      (∀ x ∈ l, x.1 = m → ∃ v, x.2 = Except.ok v) →
      ((l.foldl fpStep acc)).2.lookup m = none := by
  intro l
  induction l with
  | nil => intro acc h _; exact h
  | cons x t ih =>
    intro acc h hl
    rw [List.foldl_cons]
    refine ih _ ?_ (fun y hy => hl y (List.mem_cons_of_mem _ hy))
    cases hx : x.2 with
    | ok v => simp only [fpStep, hx]; exact h
    | error msg =>
      simp only [fpStep, hx]
      have hne : x.1 ≠ m := by
        intro hxm
        rcases hl x (List.mem_cons_self _ _) hxm with ⟨v, hv⟩
        rw [hx] at hv
        exact Except.noConfusion hv
      split
      · exact lookup_append_none h (lookup_single_ne hne)
      · exact h

theorem mem_settled {fo : ℕ → String → Except String ForecastResult} {i : ℕ}
    {models : List String} {errs : List (String × String)}
    {x : String × Except String ForecastResult}
    (h : x ∈ models.filterMap (fun m =>
      if (errs.lookup m).isNone then some (m, fo i m) else none)) :
    x.1 ∈ models ∧ (errs.lookup x.1).isNone ∧ x.2 = fo i x.1 := by
  rcases List.mem_filterMap.mp h with ⟨m, hm, hx⟩
  split at hx
  · rename_i hnone
    injection hx with hx
    subst hx
    exact ⟨hm, hnone, rfl⟩
  · exact absurd hx (by simp)

theorem forecastPhase_forecasts_mem {fo : ℕ → String → Except String ForecastResult}
    {models : List String} {i : ℕ} {errs : List (String × String)}
    {p : String × ForecastResult}
    (hp : p ∈ (forecastPhase fo models i errs).1) :
    (errs.lookup p.1).isNone ∧ fo i p.1 = Except.ok p.2 := by
  unfold forecastPhase at hp
  dsimp only at hp
  refine fpFold_forecasts_mem _ _ ?_ ?_ p hp
  · intro q hq
    exact absurd hq (List.not_mem_nil q)
  · intro x hx
    exact ⟨(mem_settled hx).2.1, (mem_settled hx).2.2⟩

theorem forecastPhase_keys_nodup (fo : ℕ → String → Except String ForecastResult)
    (models : List String) (i : ℕ) (errs : List (String × String)) :
    (((forecastPhase fo models i errs).1).map Prod.fst).Nodup := by
  unfold forecastPhase
  dsimp only
  exact fpFold_keys_nodup _ _ (by simp)

theorem forecastPhase_lookup_some {fo : ℕ → String → Except String ForecastResult}
    {models : List String} {i : ℕ} {errs : List (String × String)} {m e : String}
    (h : errs.lookup m = some e) :
    (forecastPhase fo models i errs).2.lookup m = some e := by
  unfold forecastPhase
  dsimp only
  exact fpFold_lookup_some _ _ h

theorem forecastPhase_lookup_none {fo : ℕ → String → Except String ForecastResult}
    {models : List String} {i : ℕ} {errs : List (String × String)} {m : String}
    {f : ForecastResult} (h : errs.lookup m = none) (hok : fo i m = Except.ok f) :
    (forecastPhase fo models i errs).2.lookup m = none := by
  unfold forecastPhase
  dsimp only
  refine fpFold_lookup_none _ _ h ?_
  intro x hx hxm
  rcases mem_settled hx with ⟨_, _, hx2⟩
  exact ⟨f, by rw [hx2, hxm, hok]⟩

theorem epFold_lookup_some {jo : ℕ → String → Except String JudgeResult} {i : ℕ}
    {av : ℚ} {m e : String} :
    ∀ (l : List (String × ForecastResult))
      (acc : List (String × JudgeResult) × List (String × List String) ×
        List (String × List PerfEntry) × List (String × String)),
      acc.2.2.2.lookup m = some e →
      ((l.foldl (epStep jo i av) acc)).2.2.2.lookup m = some e := by
  intro l
  induction l with
  | nil => intro acc h; exact h
  | cons x t ih =>
    intro acc h
    rw [List.foldl_cons]
    apply ih
    cases hx : jo i x.1 with
    | ok jr => simp only [epStep, hx]; exact h
    | error msg =>
      simp only [epStep, hx]
      split
      · exact lookup_append_some h
      · exact h

theorem epFold_judge_fail {jo : ℕ → String → Except String JudgeResult} {i : ℕ}
    {av : ℚ} {m : String} {msg : String} :
    ∀ (l : List (String × ForecastResult))
      (acc : List (String × JudgeResult) × List (String × List String) ×
        List (String × List PerfEntry) × List (String × String)),
      (l.map Prod.fst).Nodup →
      (∃ f, (m, f) ∈ l) →
      jo i m = Except.error msg →
      acc.2.2.2.lookup m = none →
      ((l.foldl (epStep jo i av) acc)).2.2.2.lookup m =
        some ("Evaluation failed: " ++ msg) := by
  intro l
  induction l with
  | nil =>
    intro acc _ hmem _ _
    rcases hmem with ⟨f, hf⟩
    exact absurd hf (List.not_mem_nil _)
  | cons x t ih =>
    intro acc hnd hmem hjo hnone
    rcases hmem with ⟨f, hf⟩
    rw [List.foldl_cons]
    rcases List.mem_cons.mp hf with heq | htail
    · subst heq
      apply epFold_lookup_some
      have hguard : (acc.2.2.2.lookup m).isNone := by rw [hnone]; rfl
      simp only [epStep, hjo, hguard, if_pos]
      rw [List.lookup_append, hnone]
      simp [List.lookup_cons]
    · have hne : x.1 ≠ m := by
        intro hxm
        have hx1 : x.1 ∈ t.map Prod.fst := by
          rw [hxm]
          exact List.mem_map_of_mem _ htail
        rw [List.map_cons] at hnd
        exact (List.nodup_cons.mp hnd).1 hx1
      refine ih _ ?_ ⟨f, htail⟩ hjo ?_
      · rw [List.map_cons] at hnd
        exact (List.nodup_cons.mp hnd).2
      · cases hx : jo i x.1 with
        | ok jr => simp only [epStep, hx]; exact hnone
        | error msg' =>
          simp only [epStep, hx]
          split
          · exact lookup_append_none hnone (lookup_single_ne hne)
          · exact hnone

theorem stepTick_null_eq {fo : ℕ → String → Except String ForecastResult}
    {jo : ℕ → String → Except String JudgeResult} {models : List String}
    {ticks : List Tick} {i : ℕ} {s : LoopState} {ct nt : Tick}
    (h0 : s.halted = false) (hct : ticks.get? i = some ct)
    (hnt : ticks.get? (i + 1) = some nt) (hv : nt.primary.value = none) :
    stepTick fo jo models ticks i s =
      { s with
        events := s.events ++ (models.filter
          (fun m => (s.persistentErrors.lookup m).isNone)).map
            (RunEvent.forecastCall i),
        persistentErrors := (forecastPhase fo models i s.persistentErrors).2,
        halted := true } := by
  unfold stepTick
  rw [h0, if_neg Bool.false_ne_true, hct, hnt]
  dsimp only
  rw [hv]

theorem stepTick_some_eq {fo : ℕ → String → Except String ForecastResult}
    {jo : ℕ → String → Except String JudgeResult} {models : List String}
    {ticks : List Tick} {i : ℕ} {s : LoopState} {ct nt : Tick} {av : ℚ}
    (h0 : s.halted = false) (hct : ticks.get? i = some ct)
    (hnt : ticks.get? (i + 1) = some nt) (hv : nt.primary.value = some av) :
    stepTick fo jo models ticks i s =
      { feedbackHist := (evalPhase jo i av
          (forecastPhase fo models i s.persistentErrors).1 s.feedbackHist
          s.perfHist (forecastPhase fo models i s.persistentErrors).2).2.1
        perfHist := (evalPhase jo i av
          (forecastPhase fo models i s.persistentErrors).1 s.feedbackHist
          s.perfHist (forecastPhase fo models i s.persistentErrors).2).2.2.1
        tickResults := s.tickResults ++
          (if (evalPhase jo i av (forecastPhase fo models i s.persistentErrors).1
              s.feedbackHist s.perfHist
              (forecastPhase fo models i s.persistentErrors).2).1.isEmpty then []
           else [{ tickIndex := i, tickData := ct,
                   forecasts := (forecastPhase fo models i s.persistentErrors).1,
                   evaluations := (evalPhase jo i av
                     (forecastPhase fo models i s.persistentErrors).1 s.feedbackHist
                     s.perfHist (forecastPhase fo models i s.persistentErrors).2).1 }])
        persistentErrors := (evalPhase jo i av
          (forecastPhase fo models i s.persistentErrors).1 s.feedbackHist
          s.perfHist (forecastPhase fo models i s.persistentErrors).2).2.2.2
        events := s.events ++ (models.filter
          (fun m => (s.persistentErrors.lookup m).isNone)).map
            (RunEvent.forecastCall i) ++
          (forecastPhase fo models i s.persistentErrors).1.map
            (fun p => RunEvent.judgeCall i p.1)
        halted := false } := by
  unfold stepTick
  rw [h0, if_neg Bool.false_ne_true, hct, hnt]
  dsimp only
  rw [hv]

theorem stepTick_oob_eq {fo : ℕ → String → Except String ForecastResult}
    {jo : ℕ → String → Except String JudgeResult} {models : List String}
    {ticks : List Tick} {i : ℕ} {s : LoopState} (h0 : s.halted = false)
    (hnt : ticks.get? (i + 1) = none) :
    stepTick fo jo models ticks i s = { s with halted := true } := by
  unfold stepTick
  rw [h0, if_neg Bool.false_ne_true, hnt]
  cases hct : ticks.get? i <;> rfl

theorem stepTick_decomp (fo : ℕ → String → Except String ForecastResult)
    (jo : ℕ → String → Except String JudgeResult) (models : List String)
    (ticks : List Tick) (i : ℕ) (s : LoopState) :
    ∃ new newtr,
      (stepTick fo jo models ticks i s).events = s.events ++ new ∧
      (stepTick fo jo models ticks i s).tickResults = s.tickResults ++ newtr ∧
      (∀ e ∈ new, e.tickOf = i) ∧
      (∀ m, new.count (RunEvent.judgeCall i m) ≤ 1) ∧
      (∀ tr ∈ newtr, tr.tickIndex = i) := by
  by_cases h0 : s.halted = true
  · rw [stepTick_halted h0]
    exact ⟨[], [], (List.append_nil _).symm, (List.append_nil _).symm,
      by simp, by simp, by simp⟩
  · have h0' : s.halted = false := by revert h0; cases s.halted <;> simp
    rcases hnt : ticks.get? (i + 1) with _ | nt
    · rw [stepTick_oob_eq h0' hnt]
      exact ⟨[], [], (List.append_nil _).symm, (List.append_nil _).symm,
        by simp, by simp, by simp⟩
    · have hlen : i + 1 < ticks.length := by
        rcases List.get?_eq_some.mp hnt with ⟨h, _⟩
        exact h
      have hilen : i < ticks.length := by omega
      have hct : ticks.get? i = some (ticks.get ⟨i, hilen⟩) :=
        List.get?_eq_get hilen
      rcases hv : nt.primary.value with _ | av
      · rw [stepTick_null_eq h0' hct hnt hv]
        refine ⟨_, [], rfl, (List.append_nil _).symm, ?_, ?_, by simp⟩
        · intro e he
          rcases List.mem_map.mp he with ⟨m', _, rfl⟩
          rfl
        · intro m
          rw [List.count_eq_zero.mpr]
          · omega
          · intro hmem
            rcases List.mem_map.mp hmem with ⟨m', _, habs⟩
            exact RunEvent.noConfusion habs
      · rw [stepTick_some_eq h0' hct hnt hv]
        refine ⟨_, _, List.append_assoc _ _ _, rfl, ?_, ?_, ?_⟩
        · intro e he
          rcases List.mem_append.mp he with h' | h'
          · rcases List.mem_map.mp h' with ⟨m', _, rfl⟩
            rfl
          · rcases List.mem_map.mp h' with ⟨p, _, rfl⟩
            rfl
        · intro m
          rw [List.count_append]
          have hA : (List.count (RunEvent.judgeCall i m)
              ((models.filter (fun m' => (s.persistentErrors.lookup m').isNone)).map
                (RunEvent.forecastCall i))) = 0 := by
            rw [List.count_eq_zero]
            intro hmem
            rcases List.mem_map.mp hmem with ⟨m', _, habs⟩
            exact RunEvent.noConfusion habs
          have hB : (List.count (RunEvent.judgeCall i m)
              ((forecastPhase fo models i s.persistentErrors).1.map
                (fun p => RunEvent.judgeCall i p.1))) ≤ 1 := by
            have hmm : ((forecastPhase fo models i s.persistentErrors).1.map
                (fun p => RunEvent.judgeCall i p.1)) =
                (((forecastPhase fo models i s.persistentErrors).1.map Prod.fst).map
                  (RunEvent.judgeCall i)) := by
              rw [List.map_map]
              rfl
            rw [hmm]
            have hinj : Function.Injective (RunEvent.judgeCall i) := by
              intro a b hab
              injection hab
            have hnd := (forecastPhase_keys_nodup fo models i s.persistentErrors).map hinj
            exact List.nodup_iff_count_le_one.mp hnd _
          omega
        · intro tr htr
          split at htr
          · exact absurd htr (List.not_mem_nil tr)
          · rw [List.mem_singleton.mp htr]

theorem stepTick_sticky (fo : ℕ → String → Except String ForecastResult)
    (jo : ℕ → String → Except String JudgeResult) (models : List String)
    (ticks : List Tick) (i : ℕ) (s : LoopState) (m e : String)
    (hm : s.persistentErrors.lookup m = some e) :
    (stepTick fo jo models ticks i s).persistentErrors.lookup m = some e ∧
    ∃ new, (stepTick fo jo models ticks i s).events = s.events ++ new ∧
      eventsOfModel m new = [] := by
  by_cases h0 : s.halted = true
  · rw [stepTick_halted h0]
    exact ⟨hm, [], (List.append_nil _).symm, rfl⟩
  · have h0' : s.halted = false := by revert h0; cases s.halted <;> simp
    rcases hnt : ticks.get? (i + 1) with _ | nt
    · rw [stepTick_oob_eq h0' hnt]
      exact ⟨hm, [], (List.append_nil _).symm, rfl⟩
    · have hlen : i + 1 < ticks.length := by
        rcases List.get?_eq_some.mp hnt with ⟨h, _⟩
        exact h
      have hilen : i < ticks.length := by omega
      have hct : ticks.get? i = some (ticks.get ⟨i, hilen⟩) :=
        List.get?_eq_get hilen
      have hA : eventsOfModel m
          ((models.filter (fun m' => (s.persistentErrors.lookup m').isNone)).map
            (RunEvent.forecastCall i)) = [] := by
        unfold eventsOfModel
        rw [List.filter_eq_nil_iff]
        intro e' he'
        rcases List.mem_map.mp he' with ⟨m', hm', rfl⟩
        have hnone := (List.mem_filter.mp hm').2
        simp only [RunEvent.isCallOf, decide_eq_true_eq]
        intro habs
        rw [habs, hm] at hnone
        exact Bool.noConfusion hnone
      rcases hv : nt.primary.value with _ | av
      · rw [stepTick_null_eq h0' hct hnt hv]
        exact ⟨forecastPhase_lookup_some hm, _, rfl, hA⟩
      · rw [stepTick_some_eq h0' hct hnt hv]
        constructor
        · show (evalPhase jo i av _ _ _ _).2.2.2.lookup m = some e
          unfold evalPhase
          exact epFold_lookup_some _ _ (forecastPhase_lookup_some hm)
        · refine ⟨_, List.append_assoc _ _ _, ?_⟩
          unfold eventsOfModel
          rw [List.filter_append]
          unfold eventsOfModel at hA
          rw [hA, List.nil_append, List.filter_eq_nil_iff]
          intro e' he'
          rcases List.mem_map.mp he' with ⟨p, hp, rfl⟩
          have hmem := forecastPhase_forecasts_mem hp
          simp only [RunEvent.isCallOf, decide_eq_true_eq]
          intro habs
          rw [habs, hm] at hmem
          exact Bool.noConfusion hmem.1

theorem runLoop_decomp (fo : ℕ → String → Except String ForecastResult)
    (jo : ℕ → String → Except String JudgeResult) (models : List String)
    (ticks : List Tick) :
    ∀ (k i : ℕ) (s : LoopState),
      ∃ new newtr,
        (runLoop fo jo models ticks i k s).events = s.events ++ new ∧
        (runLoop fo jo models ticks i k s).tickResults = s.tickResults ++ newtr ∧
        (∀ e ∈ new, i ≤ e.tickOf ∧ e.tickOf < i + k) ∧
        (∀ t m, new.count (RunEvent.judgeCall t m) ≤ 1) ∧
        (∀ tr ∈ newtr, i ≤ tr.tickIndex ∧ tr.tickIndex < i + k) := by
  intro k
  induction k with
  | zero =>
    intro i s
    exact ⟨[], [], (List.append_nil _).symm, (List.append_nil _).symm,
      by simp, by simp, by simp⟩
  | succ k ih =>
    intro i s
    rcases stepTick_decomp fo jo models ticks i s with ⟨n1, t1, he1, ht1, hb1, hc1, hx1⟩
    rcases ih (i + 1) (stepTick fo jo models ticks i s) with
      ⟨n2, t2, he2, ht2, hb2, hc2, hx2⟩
    refine ⟨n1 ++ n2, t1 ++ t2, ?_, ?_, ?_, ?_, ?_⟩
    · show (runLoop fo jo models ticks (i + 1) k
        (stepTick fo jo models ticks i s)).events = _
      rw [he2, he1, List.append_assoc]
    · show (runLoop fo jo models ticks (i + 1) k
        (stepTick fo jo models ticks i s)).tickResults = _
      rw [ht2, ht1, List.append_assoc]
    · intro e he
      rcases List.mem_append.mp he with h' | h'
      · rw [hb1 e h']
        omega
      · have := hb2 e h'
        omega
    · intro t m
      rw [List.count_append]
      by_cases hti : t = i
      · subst hti
        have h2 : n2.count (RunEvent.judgeCall t m) = 0 := by
          rw [List.count_eq_zero]
          intro hmem
          have := hb2 _ hmem
          simp only [RunEvent.tickOf] at this
          omega
        have h1 := hc1 m
        omega
      · have h1 : n1.count (RunEvent.judgeCall t m) = 0 := by
          rw [List.count_eq_zero]
          intro hmem
          have := hb1 _ hmem
          simp only [RunEvent.tickOf] at this
          omega
        have h2 := hc2 t m
        omega
    · intro tr htr
      rcases List.mem_append.mp htr with h' | h'
      · rw [hx1 tr h']
        omega
      · have := hx2 tr h'
        omega

theorem runLoop_sticky (fo : ℕ → String → Except String ForecastResult)
    (jo : ℕ → String → Except String JudgeResult) (models : List String)
    (ticks : List Tick) :
    ∀ (k i : ℕ) (s : LoopState) (m e : String),
      s.persistentErrors.lookup m = some e →
      (runLoop fo jo models ticks i k s).persistentErrors.lookup m = some e ∧
      eventsOfModel m (runLoop fo jo models ticks i k s).events =
        eventsOfModel m s.events := by
  intro k
  induction k with
  | zero => intro i s m e h; exact ⟨h, rfl⟩
  | succ k ih =>
    intro i s m e h
    rcases stepTick_sticky fo jo models ticks i s m e h with ⟨hl, new, hev, hnil⟩
    rcases ih (i + 1) (stepTick fo jo models ticks i s) m e hl with ⟨hl2, hev2⟩
    refine ⟨hl2, ?_⟩
    show eventsOfModel m (runLoop fo jo models ticks (i + 1) k
      (stepTick fo jo models ticks i s)).events = _
    rw [hev2, hev]
    unfold eventsOfModel
    rw [List.filter_append]
    unfold eventsOfModel at hnil
    rw [hnil, List.append_nil]

theorem runLoop_unhalted (fo : ℕ → String → Except String ForecastResult)
    (jo : ℕ → String → Except String JudgeResult) (models : List String)
    (ticks : List Tick) :
    ∀ (k i : ℕ) (s : LoopState), s.halted = false →
      (∀ j, i ≤ j → j < i + k →
        ∃ nt av, ticks.get? (j + 1) = some nt ∧ nt.primary.value = some av) →
      (runLoop fo jo models ticks i k s).halted = false := by
  intro k
  induction k with
  | zero => intro i s h0 _; exact h0
  | succ k ih =>
    intro i s h0 hpre
    rcases hpre i (le_refl i) (by omega) with ⟨nt, av, hnt, hv⟩
    have hlen : i + 1 < ticks.length := by
      rcases List.get?_eq_some.mp hnt with ⟨h, _⟩
      exact h
    have hilen : i < ticks.length := by omega
    have hct : ticks.get? i = some (ticks.get ⟨i, hilen⟩) :=
      List.get?_eq_get hilen
    show (runLoop fo jo models ticks (i + 1) k
      (stepTick fo jo models ticks i s)).halted = false
    apply ih (i + 1) _ _ (fun j hj1 hj2 => hpre j (by omega) (by omega))
    rw [stepTick_some_eq h0 hct hnt hv]

/-! ## Claims about the simulation loop -/

/-- C2 counterexample: in the 5-tick run `ticksCex2` with
    `ticks[3].primary.value = null`, the halt at tick index 2 happens only
    *after* the forecast phase: the forecaster IS invoked for tick 2
    (`forecastCall 2` is in the log), contradicting the claim that the loop
    stops before tick 2's forecast phase with no forecaster invoked.  Ticks
    0 and 1 are committed and nothing later is attempted. -/
theorem claim2_counterexample :
    RunEvent.forecastCall 2 "P::m" ∈ runEvents outCex2 ∧
    (runTickResults outCex2).map (fun tr => tr.tickIndex) = [0, 1] ∧
    (ticksCex2.get? 3).bind (fun t => t.primary.value) = none :=
  ⟨by decide, by decide, rfl⟩

/-- C2 (amended): if `nextTick.primary.value` is `null` at tick `i` (and the
    loop reaches `i`, i.e. every earlier tick had a defined next value), the
    loop stops at the termination check *after* tick `i`'s forecast phase:
    forecasters not yet permanently failed are still invoked for tick `i`,
    but no judge call is made for tick `i`, no tick after `i` is processed
    even if it has valid data, no TickResult is committed for tick `i` or
    later, and every TickResult committed for earlier ticks is preserved in
    the returned list. -/
theorem claim2_null_ground_truth_halt
    (fo : ℕ → String → Except String ForecastResult)
    (jo : ℕ → String → Except String JudgeResult) (models : List String)
    (ticks : List Tick) (maxT i : ℕ) (nt : Tick) (hi : i < maxT)
    (hnt : ticks.get? (i + 1) = some nt) (hv : nt.primary.value = none)
    (hpre : ∀ j, j < i → ∃ nt' av, ticks.get? (j + 1) = some nt' ∧
      nt'.primary.value = some av) :
    (runLoop fo jo models ticks 0 maxT (initState models)).tickResults =
      (runLoop fo jo models ticks 0 i (initState models)).tickResults ∧
    (∀ m, RunEvent.judgeCall i m ∉
      (runLoop fo jo models ticks 0 maxT (initState models)).events) ∧
    (∀ j m, i < j →
      RunEvent.forecastCall j m ∉
        (runLoop fo jo models ticks 0 maxT (initState models)).events ∧
      RunEvent.judgeCall j m ∉
        (runLoop fo jo models ticks 0 maxT (initState models)).events) ∧
    (∀ tr ∈ (runLoop fo jo models ticks 0 maxT (initState models)).tickResults,
      tr.tickIndex < i) ∧
    (∀ m, m ∈ models →
      (runLoop fo jo models ticks 0 i (initState models)).persistentErrors.lookup m
        = none →
      RunEvent.forecastCall i m ∈
        (runLoop fo jo models ticks 0 maxT (initState models)).events) := by
  have hpre_unhalt :
      (runLoop fo jo models ticks 0 i (initState models)).halted = false := by
    apply runLoop_unhalted fo jo models ticks i 0 _ rfl
    intro j _ hj
    exact hpre j (by omega)
  have hlen : i + 1 < ticks.length := by
    rcases List.get?_eq_some.mp hnt with ⟨h, _⟩
    exact h
  have hilen : i < ticks.length := by omega
  have hct : ticks.get? i = some (ticks.get ⟨i, hilen⟩) := List.get?_eq_get hilen
  have hstep := @stepTick_null_eq fo jo models ticks i
    (runLoop fo jo models ticks 0 i (initState models)) _ _ hpre_unhalt hct hnt hv
  have hfull : runLoop fo jo models ticks 0 maxT (initState models) =
      stepTick fo jo models ticks i
        (runLoop fo jo models ticks 0 i (initState models)) := by
    rw [show maxT = i + (maxT - i) by omega, runLoop_add, Nat.zero_add,
      show maxT - i = (maxT - i - 1) + 1 by omega]
    show runLoop fo jo models ticks (i + 1) (maxT - i - 1)
      (stepTick fo jo models ticks i
        (runLoop fo jo models ticks 0 i (initState models))) = _
    apply runLoop_halted
    rw [hstep]
  rcases runLoop_decomp fo jo models ticks i 0 (initState models) with
    ⟨new, newtr, hev, htr, hbnd, _, hxbnd⟩
  have hevents : (runLoop fo jo models ticks 0 i (initState models)).events = new := by
    rw [hev]
    rfl
  have htrs : (runLoop fo jo models ticks 0 i (initState models)).tickResults = newtr := by
    rw [htr]
    rfl
  refine ⟨?_, ?_, ?_, ?_, ?_⟩
  · rw [hfull, hstep]
  · intro m hmem
    rw [hfull, hstep] at hmem
    dsimp only at hmem
    rcases List.mem_append.mp hmem with h' | h'
    · rw [hevents] at h'
      have := hbnd _ h'
      simp only [RunEvent.tickOf] at this
      omega
    · rcases List.mem_map.mp h' with ⟨m', _, habs⟩
      exact RunEvent.noConfusion habs
  · intro j m hij
    constructor
    · intro hmem
      rw [hfull, hstep] at hmem
      dsimp only at hmem
      rcases List.mem_append.mp hmem with h' | h'
      · rw [hevents] at h'
        have := hbnd _ h'
        simp only [RunEvent.tickOf] at this
        omega
      · rcases List.mem_map.mp h' with ⟨m', _, habs⟩
        injection habs with h1 _
        omega
    · intro hmem
      rw [hfull, hstep] at hmem
      dsimp only at hmem
      rcases List.mem_append.mp hmem with h' | h'
      · rw [hevents] at h'
        have := hbnd _ h'
        simp only [RunEvent.tickOf] at this
        omega
      · rcases List.mem_map.mp h' with ⟨m', _, habs⟩
        exact RunEvent.noConfusion habs
  · intro tr htr'
    rw [hfull, hstep] at htr'
    dsimp only at htr'
    rw [htrs] at htr'
    have := hxbnd tr htr'
    omega
  · intro m hm hnone
    rw [hfull, hstep]
    apply List.mem_append_right
    apply List.mem_map_of_mem
    apply List.mem_filter.mpr
    exact ⟨hm, by rw [hnone]; rfl⟩

/-- C2 witness: in the concrete 5-tick run, the loop halts at tick 2 —
    tick results match the 2-tick prefix run, no judge call is made at tick
    2, tick 3 is never forecast, and the forecaster is still invoked at
    tick 2. -/
theorem claim2_witness :
    (runLoop foOk joOk ["P::m"] ticksCex2 0 4 (initState ["P::m"])).tickResults =
      (runLoop foOk joOk ["P::m"] ticksCex2 0 2 (initState ["P::m"])).tickResults ∧
    RunEvent.judgeCall 2 "P::m" ∉
      (runLoop foOk joOk ["P::m"] ticksCex2 0 4 (initState ["P::m"])).events ∧
    RunEvent.forecastCall 3 "P::m" ∉
      (runLoop foOk joOk ["P::m"] ticksCex2 0 4 (initState ["P::m"])).events ∧
    RunEvent.forecastCall 2 "P::m" ∈
      (runLoop foOk joOk ["P::m"] ticksCex2 0 4 (initState ["P::m"])).events := by
  have h := claim2_null_ground_truth_halt foOk joOk ["P::m"] ticksCex2 4 2
    (mkTick none) (by omega) rfl rfl
    (by
      intro j hj
      interval_cases j
      · exact ⟨mkTick (some 101), 101, rfl, rfl⟩
      · exact ⟨mkTick (some 102), 102, rfl, rfl⟩)
  exact ⟨h.1, h.2.1 "P::m", (h.2.2.1 3 "P::m" (by omega)).1,
    h.2.2.2.2 "P::m" (by decide) (by decide)⟩

/-- C8: once a permanent error is recorded for a forecaster (visible after
    processing the first `i` ticks), it is never invoked again — neither
    forecast nor judge calls for it appear in any longer run — and the
    recorded error message is retained unchanged (first occurrence wins). -/
theorem claim8_sticky_failure (fo : ℕ → String → Except String ForecastResult)
    (jo : ℕ → String → Except String JudgeResult) (models : List String)
    (ticks : List Tick) (i k : ℕ) (m e : String)
    (h : (runLoop fo jo models ticks 0 i (initState models)).persistentErrors.lookup m
      = some e) :
    (runLoop fo jo models ticks 0 (i + k)
      (initState models)).persistentErrors.lookup m = some e ∧
    eventsOfModel m (runLoop fo jo models ticks 0 (i + k) (initState models)).events =
      eventsOfModel m (runLoop fo jo models ticks 0 i (initState models)).events := by
  rw [runLoop_add, Nat.zero_add]
  exact runLoop_sticky fo jo models ticks k i _ m e h

/-- C8 witness: model `P::a` fails its tick-0 forecast; after the first
    tick its recorded error is the stripped message, and over the remaining
    three ticks it keeps that error and receives no further invocations. -/
theorem claim8_witness :
    (runLoop foFailA joOk ["P::a", "P::b"] ticksCex2 0 4
      (initState ["P::a", "P::b"])).persistentErrors.lookup "P::a" =
      some (stripModelTag "P::a" "[a] boom") ∧
    eventsOfModel "P::a"
      (runLoop foFailA joOk ["P::a", "P::b"] ticksCex2 0 4
        (initState ["P::a", "P::b"])).events =
    eventsOfModel "P::a"
      (runLoop foFailA joOk ["P::a", "P::b"] ticksCex2 0 1
        (initState ["P::a", "P::b"])).events :=
  claim8_sticky_failure foFailA joOk ["P::a", "P::b"] ticksCex2 1 3 "P::a"
    (stripModelTag "P::a" "[a] boom") rfl

theorem retryAux_succ (outcomes : ℕ → Except String ForecastResult)
    (jitter : ℕ → ℚ) (attempts fuel : ℕ) :
    retryAux outcomes jitter attempts (fuel + 1) =
      match outcomes attempts with
      | Except.ok r => (Except.ok r, attempts + 1, [])
      | Except.error msg =>
        if isRetryable msg = true ∧ attempts < maxRetries - 1 then
          (((retryAux outcomes jitter (attempts + 1) fuel)).1,
            ((retryAux outcomes jitter (attempts + 1) fuel)).2.1,
            (2 ^ (attempts + 1) * 1000 + jitter attempts * 1000) ::
              ((retryAux outcomes jitter (attempts + 1) fuel)).2.2)
        else (Except.error msg, attempts + 1, []) := rfl

theorem gfwr_spec (outcomes : ℕ → Except String ForecastResult)
    (jitter : ℕ → ℚ) :
    (getForecastWithRetries outcomes jitter).2.1 ≤ maxRetries ∧
    (getForecastWithRetries outcomes jitter).2.2.length =
      (getForecastWithRetries outcomes jitter).2.1 - 1 ∧
    (∀ k, k + 1 < (getForecastWithRetries outcomes jitter).2.1 →
      retryableOutcome (outcomes k) = true) ∧
    (∀ k, k + 1 < (getForecastWithRetries outcomes jitter).2.1 →
      (getForecastWithRetries outcomes jitter).2.2.get? k =
        some (2 ^ (k + 1) * 1000 + jitter k * 1000)) ∧
    (∀ msg, outcomes ((getForecastWithRetries outcomes jitter).2.1 - 1) =
        Except.error msg →
      (getForecastWithRetries outcomes jitter).1 = Except.error msg ∧
      (isRetryable msg = false ∨
        (getForecastWithRetries outcomes jitter).2.1 = maxRetries)) ∧
    (∀ v, outcomes ((getForecastWithRetries outcomes jitter).2.1 - 1) =
        Except.ok v →
      (getForecastWithRetries outcomes jitter).1 = Except.ok v) := by
  cases h0 : outcomes 0 with
  | ok r0 =>
    have hval : getForecastWithRetries outcomes jitter = (Except.ok r0, 1, []) := by
      unfold getForecastWithRetries
      rw [show maxRetries = 2 + 1 from rfl, retryAux_succ, h0]
    rw [hval]
    refine ⟨by norm_num [maxRetries], rfl, fun k hk => absurd hk (by norm_num),
      fun k hk => absurd hk (by norm_num), ?_, ?_⟩
    · intro msg hmsg
      rw [show ((Except.ok r0, 1, ([] : List ℚ)) :
          Except String ForecastResult × ℕ × List ℚ).2.1 - 1 = 0 from rfl, h0] at hmsg
      exact Except.noConfusion hmsg
    · intro v hv
      rw [show ((Except.ok r0, 1, ([] : List ℚ)) :
          Except String ForecastResult × ℕ × List ℚ).2.1 - 1 = 0 from rfl, h0] at hv
      injection hv with hv
      rw [hv]
  | error m0 =>
    by_cases hc0 : isRetryable m0 = true
    · cases h1 : outcomes 1 with
      | ok r1 =>
        have hval : getForecastWithRetries outcomes jitter =
            (Except.ok r1, 2, [2 ^ (0 + 1) * 1000 + jitter 0 * 1000]) := by
          unfold getForecastWithRetries
          rw [show maxRetries = 2 + 1 from rfl, retryAux_succ, h0]
          dsimp only
          rw [if_pos ⟨hc0, by norm_num [maxRetries]⟩,
            show (2 : ℕ) = 1 + 1 from rfl, retryAux_succ,
            show (0 : ℕ) + 1 = 1 from rfl, h1]
        rw [hval]
        refine ⟨by norm_num [maxRetries], rfl, ?_, ?_, ?_, ?_⟩
        · intro k hk
          have hk0 : k = 0 := by
            have : k + 1 < 2 := hk
            omega
          subst hk0
          rw [h0]
          simp only [retryableOutcome]
          exact hc0
        · intro k hk
          have hk0 : k = 0 := by
            have : k + 1 < 2 := hk
            omega
          subst hk0
          rfl
        · intro msg hmsg
          rw [show ((Except.ok r1, 2, [2 ^ (0 + 1) * 1000 + jitter 0 * 1000]) :
              Except String ForecastResult × ℕ × List ℚ).2.1 - 1 = 1 from rfl,
            h1] at hmsg
          exact Except.noConfusion hmsg
        · intro v hv
          rw [show ((Except.ok r1, 2, [2 ^ (0 + 1) * 1000 + jitter 0 * 1000]) :
              Except String ForecastResult × ℕ × List ℚ).2.1 - 1 = 1 from rfl,
            h1] at hv
          injection hv with hv
          rw [hv]
      | error m1 =>
        by_cases hc1 : isRetryable m1 = true
        · cases h2 : outcomes 2 with
          | ok r2 =>
            have hval : getForecastWithRetries outcomes jitter =
                (Except.ok r2, 3, [2 ^ (0 + 1) * 1000 + jitter 0 * 1000,
                  2 ^ (1 + 1) * 1000 + jitter 1 * 1000]) := by
              unfold getForecastWithRetries
              rw [show maxRetries = 2 + 1 from rfl, retryAux_succ, h0]
              dsimp only
              rw [if_pos ⟨hc0, by norm_num [maxRetries]⟩,
                show (2 : ℕ) = 1 + 1 from rfl, retryAux_succ,
                show (0 : ℕ) + 1 = 1 from rfl, h1]
              dsimp only
              rw [if_pos ⟨hc1, by norm_num [maxRetries]⟩,
                show (1 : ℕ) = 0 + 1 from rfl, retryAux_succ,
                show (0 : ℕ) + 1 + 1 = 2 from rfl, h2]
            rw [hval]
            refine ⟨by norm_num [maxRetries], rfl, ?_, ?_, ?_, ?_⟩
            · intro k hk
              have : k + 1 < 3 := hk
              have hk01 : k = 0 ∨ k = 1 := by omega
              rcases hk01 with rfl | rfl
              · rw [h0]; simp only [retryableOutcome]; exact hc0
              · rw [h1]; simp only [retryableOutcome]; exact hc1
            · intro k hk
              have : k + 1 < 3 := hk
              have hk01 : k = 0 ∨ k = 1 := by omega
              rcases hk01 with rfl | rfl <;> rfl
            · intro msg hmsg
              rw [show ((Except.ok r2, 3, [2 ^ (0 + 1) * 1000 + jitter 0 * 1000,
                  2 ^ (1 + 1) * 1000 + jitter 1 * 1000]) :
                  Except String ForecastResult × ℕ × List ℚ).2.1 - 1 = 2 from rfl,
                h2] at hmsg
              exact Except.noConfusion hmsg
            · intro v hv
              rw [show ((Except.ok r2, 3, [2 ^ (0 + 1) * 1000 + jitter 0 * 1000,
                  2 ^ (1 + 1) * 1000 + jitter 1 * 1000]) :
                  Except String ForecastResult × ℕ × List ℚ).2.1 - 1 = 2 from rfl,
                h2] at hv
              injection hv with hv
              rw [hv]
          | error m2 =>
            have hval : getForecastWithRetries outcomes jitter =
                (Except.error m2, 3, [2 ^ (0 + 1) * 1000 + jitter 0 * 1000,
                  2 ^ (1 + 1) * 1000 + jitter 1 * 1000]) := by
              unfold getForecastWithRetries
              rw [show maxRetries = 2 + 1 from rfl, retryAux_succ, h0]
              dsimp only
              rw [if_pos ⟨hc0, by norm_num [maxRetries]⟩,
                show (2 : ℕ) = 1 + 1 from rfl, retryAux_succ,
                show (0 : ℕ) + 1 = 1 from rfl, h1]
              dsimp only
              rw [if_pos ⟨hc1, by norm_num [maxRetries]⟩,
                show (1 : ℕ) = 0 + 1 from rfl, retryAux_succ,
                show (0 : ℕ) + 1 + 1 = 2 from rfl, h2]
              dsimp only
              rw [if_neg (fun h => absurd h.2 (by norm_num [maxRetries]))]
            rw [hval]
            refine ⟨by norm_num [maxRetries], rfl, ?_, ?_, ?_, ?_⟩
            · intro k hk
              have : k + 1 < 3 := hk
              have hk01 : k = 0 ∨ k = 1 := by omega
              rcases hk01 with rfl | rfl
              · rw [h0]; simp only [retryableOutcome]; exact hc0
              · rw [h1]; simp only [retryableOutcome]; exact hc1
            · intro k hk
              have : k + 1 < 3 := hk
              have hk01 : k = 0 ∨ k = 1 := by omega
              rcases hk01 with rfl | rfl <;> rfl
            · intro msg hmsg
              rw [show ((Except.error m2, 3, [2 ^ (0 + 1) * 1000 + jitter 0 * 1000,
                  2 ^ (1 + 1) * 1000 + jitter 1 * 1000]) :
                  Except String ForecastResult × ℕ × List ℚ).2.1 - 1 = 2 from rfl,
                h2] at hmsg
              injection hmsg with hmsg
              subst hmsg
              exact ⟨rfl, Or.inr rfl⟩
            · intro v hv
              rw [show ((Except.error m2, 3, [2 ^ (0 + 1) * 1000 + jitter 0 * 1000,
                  2 ^ (1 + 1) * 1000 + jitter 1 * 1000]) :
                  Except String ForecastResult × ℕ × List ℚ).2.1 - 1 = 2 from rfl,
                h2] at hv
              exact Except.noConfusion hv
        · have hval : getForecastWithRetries outcomes jitter =
              (Except.error m1, 2, [2 ^ (0 + 1) * 1000 + jitter 0 * 1000]) := by
            unfold getForecastWithRetries
            rw [show maxRetries = 2 + 1 from rfl, retryAux_succ, h0]
            dsimp only
            rw [if_pos ⟨hc0, by norm_num [maxRetries]⟩,
              show (2 : ℕ) = 1 + 1 from rfl, retryAux_succ,
              show (0 : ℕ) + 1 = 1 from rfl, h1]
            dsimp only
            rw [if_neg (fun h => hc1 h.1)]
          rw [hval]
          refine ⟨by norm_num [maxRetries], rfl, ?_, ?_, ?_, ?_⟩
          · intro k hk
            have hk0 : k = 0 := by
              have : k + 1 < 2 := hk
              omega
            subst hk0
            rw [h0]
            simp only [retryableOutcome]
            exact hc0
          · intro k hk
            have hk0 : k = 0 := by
              have : k + 1 < 2 := hk
              omega
            subst hk0
            rfl
          · intro msg hmsg
            rw [show ((Except.error m1, 2, [2 ^ (0 + 1) * 1000 + jitter 0 * 1000]) :
                Except String ForecastResult × ℕ × List ℚ).2.1 - 1 = 1 from rfl,
              h1] at hmsg
            injection hmsg with hmsg
            subst hmsg
            refine ⟨rfl, Or.inl ?_⟩
            revert hc1
            cases isRetryable m1 <;> simp
          · intro v hv
            rw [show ((Except.error m1, 2, [2 ^ (0 + 1) * 1000 + jitter 0 * 1000]) :
                Except String ForecastResult × ℕ × List ℚ).2.1 - 1 = 1 from rfl,
              h1] at hv
            exact Except.noConfusion hv
    · have hval : getForecastWithRetries outcomes jitter =
          (Except.error m0, 1, []) := by
        unfold getForecastWithRetries
        rw [show maxRetries = 2 + 1 from rfl, retryAux_succ, h0]
        dsimp only
        rw [if_neg (fun h => hc0 h.1)]
      rw [hval]
      refine ⟨by norm_num [maxRetries], rfl, fun k hk => absurd hk (by norm_num),
        fun k hk => absurd hk (by norm_num), ?_, ?_⟩
      · intro msg hmsg
        rw [show ((Except.error m0, 1, ([] : List ℚ)) :
            Except String ForecastResult × ℕ × List ℚ).2.1 - 1 = 0 from rfl,
          h0] at hmsg
        injection hmsg with hmsg
        subst hmsg
        refine ⟨rfl, Or.inl ?_⟩
        revert hc0
        cases isRetryable m0 <;> simp
      · intro v hv
        rw [show ((Except.error m0, 1, ([] : List ℚ)) :
            Except String ForecastResult × ℕ × List ℚ).2.1 - 1 = 0 from rfl,
          h0] at hv
        exact Except.noConfusion hv

/-- C3: the retry wrapper makes at most `maxRetries = 3` total attempts;
    every non-final attempt failed with a retryable signature (rate limit /
    HTTP 5xx / "overloaded"); the `k`-th retry (1-based) is preceded by a
    wait of exactly `2^k·1000 + random·1000` milliseconds — `2^k` seconds
    plus up to one second of jitter, given `Math.random()` draws in `[0,1)`
    — and a non-retryable or final failure is propagated as-is.  Judge
    calls are never retried: each (tick, model) judge invocation appears at
    most once in a whole run's log, and a single judge failure records a
    permanent `Evaluation failed:` error for that model (sticky per C8). -/
theorem claim3_retry_policy (outcomes : ℕ → Except String ForecastResult)
    (jitter : ℕ → ℚ) (hj : ∀ k, 0 ≤ jitter k ∧ jitter k < 1)
    (fo : ℕ → String → Except String ForecastResult)
    (jo : ℕ → String → Except String JudgeResult) (models : List String)
    (ticks : List Tick) (maxT t : ℕ) (m : String) (s : LoopState)
    (msg : String) (f : ForecastResult) (nt : Tick) (av : ℚ) :
    (getForecastWithRetries outcomes jitter).2.1 ≤ maxRetries ∧
    (∀ k, k + 1 < (getForecastWithRetries outcomes jitter).2.1 →
      retryableOutcome (outcomes k) = true) ∧
    (∀ k, k + 1 < (getForecastWithRetries outcomes jitter).2.1 →
      (getForecastWithRetries outcomes jitter).2.2.get? k =
        some (2 ^ (k + 1) * 1000 + jitter k * 1000)) ∧
    (∀ k d, (getForecastWithRetries outcomes jitter).2.2.get? k = some d →
      2 ^ (k + 1) * 1000 ≤ d ∧ d < 2 ^ (k + 1) * 1000 + 1000) ∧
    (∀ msg', outcomes ((getForecastWithRetries outcomes jitter).2.1 - 1) =
        Except.error msg' →
      (getForecastWithRetries outcomes jitter).1 = Except.error msg' ∧
      (isRetryable msg' = false ∨
        (getForecastWithRetries outcomes jitter).2.1 = maxRetries)) ∧
    ((runLoop fo jo models ticks 0 maxT (initState models)).events.count
      (RunEvent.judgeCall t m) ≤ 1) ∧
    (s.halted = false → ticks.get? (t + 1) = some nt →
      nt.primary.value = some av →
      (forecastPhase fo models t s.persistentErrors).1.lookup m = some f →
      jo t m = Except.error msg → s.persistentErrors.lookup m = none →
      (stepTick fo jo models ticks t s).persistentErrors.lookup m =
        some ("Evaluation failed: " ++ msg)) := by
  rcases gfwr_spec outcomes jitter with ⟨ha, hlen, hretry, hdelay, hprop, _⟩
  refine ⟨ha, hretry, hdelay, ?_, hprop, ?_, ?_⟩
  · intro k d hd
    have hk : k < (getForecastWithRetries outcomes jitter).2.2.length := by
      rcases List.get?_eq_some.mp hd with ⟨h, _⟩
      exact h
    have hk1 : k + 1 < (getForecastWithRetries outcomes jitter).2.1 := by
      rw [hlen] at hk
      omega
    have hform := hdelay k hk1
    rw [hd] at hform
    injection hform with hform
    rcases hj k with ⟨hj0, hj1⟩
    have hmul0 : (0 : ℚ) ≤ jitter k * 1000 :=
      mul_nonneg hj0 (by norm_num)
    have hmul1 : jitter k * 1000 < 1000 := by
      have := mul_lt_mul_of_pos_right hj1 (show (0 : ℚ) < 1000 by norm_num)
      simpa using this
    constructor
    · rw [hform]
      linarith
    · rw [hform]
      linarith
  · rcases runLoop_decomp fo jo models ticks maxT 0 (initState models) with
      ⟨new, _, hev, _, _, hc, _⟩
    rw [hev]
    have hz : ((initState models).events ++ new).count (RunEvent.judgeCall t m) =
        new.count (RunEvent.judgeCall t m) := by
      rw [List.count_append]
      simp [initState]
    rw [hz]
    exact hc t m
  · intro h0 hnt hv hf hjo hmn
    have hlen2 : t + 1 < ticks.length := by
      rcases List.get?_eq_some.mp hnt with ⟨h, _⟩
      exact h
    have hilen : t < ticks.length := by omega
    have hct : ticks.get? t = some (ticks.get ⟨t, hilen⟩) := List.get?_eq_get hilen
    rw [stepTick_some_eq h0 hct hnt hv]
    dsimp only
    unfold evalPhase
    have hmemf := lookup_some_mem hf
    have hprops := forecastPhase_forecasts_mem hmemf
    refine epFold_judge_fail _ _
      (forecastPhase_keys_nodup fo models t s.persistentErrors) ⟨f, hmemf⟩ hjo ?_
    exact forecastPhase_lookup_none hmn hprops.2

/-- C3 witness: an all-successful outcome sequence finishes within the
    attempt bound with its result propagated; in the concrete run with a
    failing judge for `P::a`, the judge is called at most once for
    (tick 0, `P::a`) and the failure is recorded as that model's permanent
    `Evaluation failed:` error. -/
theorem claim3_witness :
    (getForecastWithRetries (fun _ => Except.ok (mkForecast 100 1)) jitterW).2.1 ≤
      maxRetries ∧
    (runLoop foOk joFailA ["P::a", "P::b"] ticksCex2 0 4
      (initState ["P::a", "P::b"])).events.count (RunEvent.judgeCall 0 "P::a") ≤ 1 ∧
    (stepTick foOk joFailA ["P::a", "P::b"] ticksCex2 0
      (initState ["P::a", "P::b"])).persistentErrors.lookup "P::a" =
      some ("Evaluation failed: " ++ "judge down") := by
  have h := claim3_retry_policy (fun _ => Except.ok (mkForecast 100 1)) jitterW
    (fun _ => ⟨by norm_num [jitterW], by norm_num [jitterW]⟩)
    foOk joFailA ["P::a", "P::b"] ticksCex2 4 0 "P::a"
    (initState ["P::a", "P::b"]) "judge down" (mkForecast 100 (1/2))
    (mkTick (some 101)) 101
  exact ⟨h.1, h.2.2.2.2.2.1, h.2.2.2.2.2.2 rfl rfl rfl rfl rfl rfl⟩

end Backtest
